import Mathlib

/-!
Shallow embedding of the clipforge timeline editing engine.

Sources embedded here:
- `src/lib/components/Timeline.svelte`: `effectiveTimelineDuration`,
  `handleTimelineClick`, `handleDrop`, `deleteSelectedTimelineClip`,
  `splitTimelineClip`, `startPlayheadDrag`, `startTrimDrag` (with its
  `handleMouseMove`/`handleMouseUp` closures), `startClipDrag` (with its
  snap logic and `handleMouseMove`/`handleMouseUp` closures).
- `src/lib/stores/timeline.js`, `src/lib/stores/playback.js`: the store shapes.
- `src/lib/stores/undo.js`: the `UndoManager` class.
- `src/lib/components/Preview.svelte`: `activeTimelineClip`,
  `selectedTimelineClip`, and the `startSync` RAF tick.

Times are modelled as exact rationals; JS number arithmetic on the small
decimal constants involved (`0.1`, `0.3`, clip times) is treated as exact.
`Math.max`/`Math.min` become `max`/`min`, and the loop/`reduce` duration
recomputations become a left fold.  DOM drags are modelled as an explicit
pointer-down value, a list of pointer-move deltas, and a pointer-up commit.
-/

namespace Clipforge

/-- Minimum clip duration in seconds: the literal `0.1` used by the trim
clamps and the split margin checks in `Timeline.svelte`. -/
def MIN_CLIP_DURATION : ℚ := 1 / 10

/-- Snap threshold in seconds (`SNAP_THRESHOLD = 0.3` in `Timeline.svelte`). -/
def SNAP_THRESHOLD : ℚ := 3 / 10

/-- Undo history bound (`MAX_HISTORY = 50` in `stores/undo.js`). -/
def MAX_HISTORY : Nat := 50

/-- A source clip from the media library (`clipsStore`).  Only the fields the
timeline engine reads are modelled (`filename`, `path`, `resolution`,
filmstrip data are presentation-only). -/
structure SourceClip where
  id : Nat
  duration : ℚ
deriving DecidableEq

/-- A clip placed on the timeline (`timelineStore.clips` element shape). -/
structure TimelineClip where
  id : Nat
  clipId : Nat
  track : Nat
  startTime : ℚ
  trimStart : ℚ
  trimEnd : ℚ
  duration : ℚ
deriving DecidableEq

/-- The `timelineStore` state: `{clips, playhead, duration}`. -/
structure TimelineState where
  clips : List TimelineClip
  playhead : ℚ
  duration : ℚ
deriving DecidableEq

/-- The `playbackStore` state. -/
structure PlaybackState where
  isPlaying : Bool
  currentTime : ℚ
  selectedClipId : Option Nat
  selectedTimelineClipId : Option Nat
deriving DecidableEq

/-- The combined mutable state the Timeline component acts on: both stores,
the preview video element's current time, and a counter modelling the
uniqueness of generated timeline-clip ids (`Date.now()`-based in the source). -/
structure EditorState where
  timeline : TimelineState
  playback : PlaybackState
  videoTime : ℚ
  nextId : Nat
deriving DecidableEq

/-- Duration recomputation used by delete / split / trim-commit / move-commit:
`clips.reduce((max, c) => Math.max(max, c.startTime + c.duration), 0)`
(the `for`-loop versions with `if (clipEnd > maxDuration)` compute the same
fold). -/
def maxClipEnd (clips : List TimelineClip) : ℚ :=
  clips.foldl (fun m c => max m (c.startTime + c.duration)) 0

/-- Lookup of a source clip by id: `$clipsStore.find(c => c.id === cid)`. -/
def sourceFor (reg : List SourceClip) (cid : Nat) : Option SourceClip :=
  reg.find? (fun sc => sc.id == cid)

/-- Lookup of a timeline clip by id: `$timelineStore.clips.find(c => c.id === cid)`. -/
def findTimelineClip (clips : List TimelineClip) (cid : Nat) : Option TimelineClip :=
  clips.find? (fun c => c.id == cid)

/-- `effectiveTimelineDuration` ($derived in `Timeline.svelte`): the store
duration, raised to a selected media-library clip's duration when one is
selected with no timeline clip selected and a video element present, floored
at 10 seconds. -/
def effectiveTimelineDuration (reg : List SourceClip) (s : EditorState)
    (videoPresent : Bool) : ℚ :=
  let m1 := s.timeline.duration
  let m2 :=
    match s.playback.selectedClipId with
    | some scid =>
      if s.playback.selectedTimelineClipId = none ∧ videoPresent = true then
        match sourceFor reg scid with
        | some selectedClip => max m1 selectedClip.duration
        | none => m1
      else m1
    | none => m1
  max m2 10

/-- `handleTimelineClick`: seek to `clickX / zoom` and deselect the timeline
clip.  `clickX` is the click position relative to the timeline element. -/
def handleTimelineClick (clickX zoom : ℚ) (pb : PlaybackState) : PlaybackState :=
  let newTime := clickX / zoom
  { pb with currentTime := newTime, selectedTimelineClipId := none }

/-- One `handleMouseMove` step of `startPlayheadDrag`: clamp the pointer to
the timeline, seek the playback store, and (when a Main-track clip covers the
new time) seek the video element into that clip's source range.  Returns the
updated playback state and the video seek, if any. -/
def playheadDragMove (xRel zoom effDur : ℚ) (tl : TimelineState)
    (pb : PlaybackState) : PlaybackState × Option ℚ :=
  let x := max 0 xRel
  let newTime := max 0 (min (x / zoom) effDur)
  let pb1 := { pb with currentTime := newTime }
  match (tl.clips.filter (fun c => c.track == 0)).find?
      (fun c => decide (c.startTime ≤ newTime) && decide (newTime < c.startTime + c.duration)) with
  | some c => (pb1, some (c.trimStart + (newTime - c.startTime)))
  | none => (pb1, none)

/-- `handleDrop`: place a media-library clip on a track.  The drop payload
`{clipId, duration}` originates from the clips store, modelled here by the
registry lookup; a missing clip aborts the drop (the `console.error` paths). -/
def handleDrop (reg : List SourceClip) (srcId trackIndex : Nat) (dropX zoom : ℚ)
    (s : EditorState) : EditorState :=
  match sourceFor reg srcId with
  | none => s
  | some data =>
    let startTime := max 0 (dropX / zoom)
    let tc : TimelineClip :=
      { id := s.nextId, clipId := srcId, track := trackIndex, startTime := startTime,
        trimStart := 0, trimEnd := data.duration, duration := data.duration }
    { s with
      timeline := { s.timeline with
        clips := s.timeline.clips ++ [tc],
        duration := max s.timeline.duration (startTime + data.duration) },
      nextId := s.nextId + 1 }

/-- `deleteSelectedTimelineClip`: remove the selected clip, recompute the
duration over the remaining clips, clear the selection; no-op when nothing is
selected. -/
def deleteSelectedTimelineClip (s : EditorState) : EditorState :=
  match s.playback.selectedTimelineClipId with
  | none => s
  | some selectedId =>
    let remainingClips := s.timeline.clips.filter (fun c => c.id != selectedId)
    { s with
      timeline := { s.timeline with
        clips := remainingClips,
        duration := maxClipEnd remainingClips },
      playback := { s.playback with selectedTimelineClipId := none } }

/-- `splitTimelineClip`: split the selected clip at the playhead.  Rejects
(no-op) when nothing is selected, the selected clip is missing, the playhead
is outside the clip's span, or within `0.1`s of either edge.  On success the
clip is replaced by two halves with fresh ids, the duration is recomputed,
the right half is selected and the playhead stays at the split time. -/
def splitTimelineClip (s : EditorState) : EditorState :=
  match s.playback.selectedTimelineClipId with
  | none => s
  | some selectedId =>
    match findTimelineClip s.timeline.clips selectedId with
    | none => s
    | some clip =>
      let splitTime := s.playback.currentTime
      let clipEnd := clip.startTime + clip.duration
      if splitTime ≤ clip.startTime ∨ clipEnd ≤ splitTime then s
      else if splitTime - clip.startTime < MIN_CLIP_DURATION ∨
          clipEnd - splitTime < MIN_CLIP_DURATION then s
      else
        let offsetInClip := splitTime - clip.startTime
        let clip1 : TimelineClip :=
          { id := s.nextId, clipId := clip.clipId, track := clip.track,
            startTime := clip.startTime, trimStart := clip.trimStart,
            trimEnd := clip.trimStart + offsetInClip, duration := offsetInClip }
        let clip2 : TimelineClip :=
          { id := s.nextId + 1, clipId := clip.clipId, track := clip.track,
            startTime := splitTime, trimStart := clip.trimStart + offsetInClip,
            trimEnd := clip.trimEnd, duration := clip.duration - offsetInClip }
        let newClips := (s.timeline.clips.filter (fun c => c.id != selectedId)) ++ [clip1, clip2]
        { s with
          timeline := { s.timeline with
            clips := newClips,
            duration := maxClipEnd newClips },
          playback := { s.playback with
            selectedTimelineClipId := some clip2.id,
            currentTime := splitTime },
          nextId := s.nextId + 2 }

/-- Which edge a trim drag grabs (`side: 'start' | 'end'`). -/
inductive TrimSide where
  | tStart
  | tEnd
deriving DecidableEq

/-- The closure state of an active `startTrimDrag` gesture: the baseline clip
and source duration captured at pointer-down, plus the `finalTrimStart` /
`finalTrimEnd` / `finalStartTime` candidates updated on each move. -/
structure TrimDrag where
  clipId : Nat
  side : TrimSide
  baseline : TimelineClip
  srcDuration : ℚ
  finalTrimStart : ℚ
  finalTrimEnd : ℚ
  finalStartTime : ℚ
deriving DecidableEq

/-- Pointer-down of `startTrimDrag`: look up the clip and its source clip
(aborting when either is missing) and capture the baseline. -/
def startTrimDrag (reg : List SourceClip) (cid : Nat) (side : TrimSide)
    (s : EditorState) : Option TrimDrag :=
  match findTimelineClip s.timeline.clips cid with
  | none => none
  | some clip =>
    match sourceFor reg clip.clipId with
    | none => none
    | some sourceClip =>
      some { clipId := cid, side := side, baseline := clip,
             srcDuration := sourceClip.duration,
             finalTrimStart := clip.trimStart, finalTrimEnd := clip.trimEnd,
             finalStartTime := clip.startTime }

/-- One `handleMouseMove` step of a trim drag: recompute the final candidates
from the baseline and the pointer delta, move the playhead (pausing), and
seek the video element to the trim boundary.  The timeline store is not
touched. -/
def trimMouseMove (d : TrimDrag) (deltaX zoom : ℚ) (s : EditorState) :
    TrimDrag × EditorState :=
  let deltaTime := deltaX / zoom
  match d.side with
  | .tStart =>
    let fs := max 0 (min (d.baseline.trimStart + deltaTime)
      (d.baseline.trimEnd - MIN_CLIP_DURATION))
    let fst := max 0 (d.baseline.startTime + deltaTime)
    ({ d with finalTrimStart := fs, finalStartTime := fst },
     { s with
       playback := { s.playback with currentTime := fst, isPlaying := false },
       videoTime := fs })
  | .tEnd =>
    let fe := max (d.baseline.trimStart + MIN_CLIP_DURATION)
      (min (d.baseline.trimEnd + deltaTime) d.srcDuration)
    let endPos := d.baseline.startTime + (fe - d.baseline.trimStart)
    ({ d with finalTrimEnd := fe },
     { s with
       playback := { s.playback with currentTime := endPos, isPlaying := false },
       videoTime := fe })

/-- A whole sequence of trim-drag pointer moves. -/
def trimMoves (d : TrimDrag) (zoom : ℚ) (moves : List ℚ) (s : EditorState) :
    TrimDrag × EditorState :=
  moves.foldl (fun p dx => trimMouseMove p.1 dx zoom p.2) (d, s)

/-- `handleMouseUp` of a trim drag: commit the final candidates into the
selected clip and recompute the timeline duration. -/
def trimMouseUp (d : TrimDrag) (s : EditorState) : EditorState :=
  let newDuration := d.finalTrimEnd - d.finalTrimStart
  let clips1 := s.timeline.clips.map (fun c =>
    if c.id == d.clipId then
      { c with trimStart := d.finalTrimStart, trimEnd := d.finalTrimEnd,
               startTime := d.finalStartTime, duration := newDuration }
    else c)
  { s with timeline := { s.timeline with
      clips := clips1, duration := maxClipEnd clips1 } }

/-- A full trim gesture: pointer-down, the pointer moves, pointer-up. -/
def applyTrimGesture (reg : List SourceClip) (cid : Nat) (side : TrimSide)
    (zoom : ℚ) (moves : List ℚ) (s : EditorState) : EditorState :=
  match startTrimDrag reg cid side s with
  | none => s
  | some d0 =>
    let p := trimMoves d0 zoom moves s
    trimMouseUp p.1 p.2

/-- The closure state of an active `startClipDrag` gesture. -/
structure MoveDrag where
  clipId : Nat
  original : TimelineClip
  finalStartTime : ℚ
  finalTrack : Nat
  isSnapping : Bool
  snapTargetTime : Option ℚ
deriving DecidableEq

/-- Pointer-down of `startClipDrag` (left button only). -/
def startClipDrag (button : Nat) (cid : Nat) (s : EditorState) : Option MoveDrag :=
  if button ≠ 0 then none
  else
    match findTimelineClip s.timeline.clips cid with
    | none => none
    | some clip =>
      some { clipId := cid, original := clip, finalStartTime := clip.startTime,
             finalTrack := clip.track, isSnapping := false, snapTargetTime := none }

/-- The unsnapped candidate start time of a move drag:
`Math.max(0, originalStartTime + deltaX / zoom)`. -/
def moveRawStartTime (d : MoveDrag) (deltaX zoom : ℚ) : ℚ :=
  max 0 (d.original.startTime + deltaX / zoom)

/-- Track switching by vertical displacement: Main drops to Overlay past
`+50`px, Overlay rises to Main past `-50`px, otherwise the original track. -/
def moveTargetTrack (d : MoveDrag) (deltaY : ℚ) : Nat :=
  if d.original.track == 0 && decide (deltaY > 50) then 1
  else if d.original.track == 1 && decide (deltaY < -50) then 0
  else d.original.track

/-- The snap points collected on a candidate track: every other clip's start
and end (in store order), then the timeline start `0`. -/
def snapPointsFor (clips : List TimelineClip) (cid : Nat) (tr : Nat) : List ℚ :=
  (clips.filter (fun c => c.id != cid && c.track == tr)).foldr
    (fun c acc => c.startTime :: (c.startTime + c.duration) :: acc) [] ++ [0]

/-- The snap-search loop: walk the points keeping the strictly closest one
seen so far, starting from threshold `SNAP_THRESHOLD` (so only points
strictly within the threshold are ever kept, and on ties the earlier point
wins). -/
def findSnapAux (raw : ℚ) : List ℚ → Option ℚ × ℚ → Option ℚ × ℚ
  | [], acc => acc
  | p :: rest, acc =>
    findSnapAux raw rest (if |raw - p| < acc.2 then (some p, |raw - p|) else acc)

/-- The chosen snap target for a candidate start time, if any. -/
def findSnap (raw : ℚ) (points : List ℚ) : Option ℚ :=
  (findSnapAux raw points (none, SNAP_THRESHOLD)).1

/-- One `handleMouseMove` step of a clip-move drag: compute the raw start
time, the target track, and the snap; update the final candidates and move
the playhead (pausing).  The timeline store is not touched. -/
def moveMouseMove (d : MoveDrag) (deltaX deltaY zoom : ℚ) (s : EditorState) :
    MoveDrag × EditorState :=
  let rawStartTime := moveRawStartTime d deltaX zoom
  let finalTrack := moveTargetTrack d deltaY
  let points := snapPointsFor s.timeline.clips d.clipId finalTrack
  let d' :=
    match findSnap rawStartTime points with
    | some p =>
      { d with finalStartTime := p, finalTrack := finalTrack,
               isSnapping := true, snapTargetTime := some p }
    | none =>
      { d with finalStartTime := rawStartTime, finalTrack := finalTrack,
               isSnapping := false, snapTargetTime := none }
  (d', { s with playback :=
    { s.playback with currentTime := d'.finalStartTime, isPlaying := false } })

/-- A whole sequence of move-drag pointer moves. -/
def moveMoves (d : MoveDrag) (zoom : ℚ) (moves : List (ℚ × ℚ)) (s : EditorState) :
    MoveDrag × EditorState :=
  moves.foldl (fun p mv => moveMouseMove p.1 mv.1 mv.2 zoom p.2) (d, s)

/-- `handleMouseUp` of a clip-move drag: commit the final `(startTime, track)`
and recompute the timeline duration. -/
def moveMouseUp (d : MoveDrag) (s : EditorState) : EditorState :=
  let clips1 := s.timeline.clips.map (fun c =>
    if c.id == d.clipId then
      { c with startTime := d.finalStartTime, track := d.finalTrack }
    else c)
  { s with timeline := { s.timeline with
      clips := clips1, duration := maxClipEnd clips1 } }

/-- A full clip-move gesture: pointer-down, the pointer moves, pointer-up. -/
def applyMoveGesture (button : Nat) (cid : Nat) (zoom : ℚ)
    (moves : List (ℚ × ℚ)) (s : EditorState) : EditorState :=
  match startClipDrag button cid s with
  | none => s
  | some d0 =>
    let p := moveMoves d0 zoom moves s
    moveMouseUp p.1 p.2

/-- `selectedTimelineClip` ($derived in `Preview.svelte`). -/
def selectedTimelineClip (tl : TimelineState) (pb : PlaybackState) :
    Option TimelineClip :=
  match pb.selectedTimelineClipId with
  | some tid => findTimelineClip tl.clips tid
  | none => none

/-- `activeTimelineClip` ($derived in `Preview.svelte`): while playing, the
first Main-track clip covering the playhead; otherwise the selected timeline
clip when it is on the Main track. -/
def activeTimelineClip (tl : TimelineState) (pb : PlaybackState) :
    Option TimelineClip :=
  let viaPlayhead :=
    if 0 < tl.clips.length ∧ pb.isPlaying = true then
      (tl.clips.filter (fun c => c.track == 0)).find?
        (fun c => decide (c.startTime ≤ pb.currentTime) &&
          decide (pb.currentTime < c.startTime + c.duration))
    else none
  match viaPlayhead with
  | some c => some c
  | none =>
    match selectedTimelineClip tl pb with
    | some c => if c.track == 0 then some c else none
    | none => none

/-- The derived source seek a clip sync performs (the Preview `$effect`):
`trimStart + (timeline playhead - startTime)`. -/
def clipSyncVideoTime (c : TimelineClip) (playhead : ℚ) : ℚ :=
  c.trimStart + (playhead - c.startTime)

/-- The outcome of one `startSync` tick in `Preview.svelte`. -/
structure SyncResult where
  playback : PlaybackState
  timeline : TimelineState
  videoPaused : Bool
  videoTime : ℚ
  reschedule : Bool
deriving DecidableEq

/-- One `startSync` RAF tick: skip everything when the video is paused;
otherwise write the derived playhead back, and at the end of the active
clip's trim range either jump to the next Main-track clip or stop playback
and stop rescheduling.  `trimStartV`/`trimEndV` are the component's
`trimStart`/`trimEnd` state (kept equal to the active clip's range by the
`$effect`). -/
def syncTick (tl : TimelineState) (pb : PlaybackState) (videoPaused : Bool)
    (videoTime trimStartV trimEndV : ℚ) : SyncResult :=
  if videoPaused then
    { playback := pb, timeline := tl, videoPaused := videoPaused,
      videoTime := videoTime, reschedule := false }
  else
    let currentTime := videoTime
    match activeTimelineClip tl pb with
    | some ac =>
      let timelinePosition := ac.startTime + (currentTime - trimStartV)
      let pb1 := { pb with currentTime := timelinePosition }
      let tl1 := { tl with playhead := timelinePosition }
      if trimEndV ≤ currentTime then
        let nextClipStartTime := ac.startTime + ac.duration
        match (tl1.clips.filter (fun c => c.track == 0)).find?
            (fun c => decide (nextClipStartTime ≤ c.startTime)) with
        | some nextClip =>
          if pb1.isPlaying then
            { playback := { pb1 with currentTime := nextClip.startTime },
              timeline := tl1, videoPaused := false, videoTime := videoTime,
              reschedule := true }
          else
            { playback := { pb1 with isPlaying := false }, timeline := tl1,
              videoPaused := true, videoTime := videoTime, reschedule := false }
        | none =>
          { playback := { pb1 with isPlaying := false }, timeline := tl1,
            videoPaused := true, videoTime := videoTime, reschedule := false }
      else
        { playback := pb1, timeline := tl1, videoPaused := false,
          videoTime := videoTime, reschedule := true }
    | none =>
      let pb1 := { pb with currentTime := currentTime }
      let tl1 := { tl with playhead := currentTime }
      match selectedTimelineClip tl pb with
      | some _ =>
        if 0 < trimEndV ∧ trimEndV < currentTime then
          { playback := pb1, timeline := tl1, videoPaused := false,
            videoTime := trimStartV, reschedule := true }
        else
          { playback := pb1, timeline := tl1, videoPaused := false,
            videoTime := videoTime, reschedule := true }
      | none =>
        { playback := pb1, timeline := tl1, videoPaused := false,
          videoTime := videoTime, reschedule := true }

/-- The `UndoManager`'s two stacks (head = most recent). -/
structure UndoManagerState where
  undoStack : List TimelineState
  redoStack : List TimelineState
deriving DecidableEq

/-- The snapshot `saveState`/`undo`/`redo` serialize:
`{clips, duration, playhead}` of the timeline store, i.e. the whole modelled
timeline state (JSON round-tripping is the identity here). -/
def snapshotOf (tl : TimelineState) : TimelineState :=
  { clips := tl.clips, duration := tl.duration, playhead := tl.playhead }

/-- `UndoManager.saveState`: push a snapshot, evict the oldest entry past
`MAX_HISTORY`, and clear the redo stack. -/
def saveState (mgr : UndoManagerState) (tl : TimelineState) : UndoManagerState :=
  let pushed := snapshotOf tl :: mgr.undoStack
  let trimmed := if MAX_HISTORY < pushed.length then pushed.dropLast else pushed
  { undoStack := trimmed, redoStack := [] }

/-- `UndoManager.undo`: returns `false` and changes nothing on an empty
stack; otherwise pushes the current state onto the redo stack and restores
the popped snapshot. -/
def undoStep (mgr : UndoManagerState) (tl : TimelineState) :
    Bool × UndoManagerState × TimelineState :=
  match mgr.undoStack with
  | [] => (false, mgr, tl)
  | previousState :: rest =>
    (true,
     { undoStack := rest, redoStack := snapshotOf tl :: mgr.redoStack },
     previousState)

/-- `UndoManager.redo`: the mirror of `undo`. -/
def redoStep (mgr : UndoManagerState) (tl : TimelineState) :
    Bool × UndoManagerState × TimelineState :=
  match mgr.redoStack with
  | [] => (false, mgr, tl)
  | nextState :: rest =>
    (true,
     { undoStack := snapshotOf tl :: mgr.undoStack, redoStack := rest },
     nextState)

/-- Pointer-down of `startTrimDrag` including its `undoManager.saveState()`
call (which happens after both lookups succeed). -/
def startTrimDragM (reg : List SourceClip) (cid : Nat) (side : TrimSide)
    (s : EditorState) (mgr : UndoManagerState) :
    Option (TrimDrag × UndoManagerState) :=
  match startTrimDrag reg cid side s with
  | none => none
  | some d => some (d, saveState mgr s.timeline)

/-- Pointer-down of `startClipDrag` including its `undoManager.saveState()`
call. -/
def startClipDragM (button : Nat) (cid : Nat) (s : EditorState)
    (mgr : UndoManagerState) : Option (MoveDrag × UndoManagerState) :=
  match startClipDrag button cid s with
  | none => none
  | some d => some (d, saveState mgr s.timeline)

/-- A full trim gesture together with its effect on the undo manager. -/
def trimGestureM (reg : List SourceClip) (cid : Nat) (side : TrimSide)
    (zoom : ℚ) (moves : List ℚ) (s : EditorState) (mgr : UndoManagerState) :
    EditorState × UndoManagerState :=
  match startTrimDragM reg cid side s mgr with
  | none => (s, mgr)
  | some dm =>
    let p := trimMoves dm.1 zoom moves s
    (trimMouseUp p.1 p.2, dm.2)

/-- One user-level timeline mutation.  `split` and `delete` carry the
selection / playhead the user established before triggering them (selecting
a clip and seeking are non-mutating UI actions); `drop` consumes the next
generated id; gestures carry their pointer-move lists. -/
inductive EditOp where
  | drop (srcId trackIndex : Nat) (dropX zoom : ℚ)
  | trim (clipId : Nat) (side : TrimSide) (zoom : ℚ) (moves : List ℚ)
  | split (selId : Nat) (t : ℚ)
  | move (clipId : Nat) (zoom : ℚ) (moves : List (ℚ × ℚ))
  | delete (selId : Nat)

/-- Predicate singling out the four clip-editing operations (everything but
`drop`). -/
def EditOp.noDrop : EditOp → Prop
  | .drop _ _ _ _ => False
  | _ => True

/-- Apply one operation to the editor state. -/
def applyOp (reg : List SourceClip) (s : EditorState) : EditOp → EditorState
  | .drop srcId tr dropX zoom => handleDrop reg srcId tr dropX zoom s
  | .trim cid side zoom moves => applyTrimGesture reg cid side zoom moves s
  | .split selId t =>
    splitTimelineClip { s with playback :=
      { s.playback with selectedTimelineClipId := some selId, currentTime := t } }
  | .move cid zoom moves => applyMoveGesture 0 cid zoom moves s
  | .delete selId =>
    deleteSelectedTimelineClip { s with playback :=
      { s.playback with selectedTimelineClipId := some selId } }

/-- Apply a sequence of operations. -/
def applyOps (reg : List SourceClip) (s : EditorState) (ops : List EditOp) :
    EditorState :=
  ops.foldl (applyOp reg) s

/-- The per-clip invariant of §3 of the spec, plus the stored `duration`
field being the derived `trimEnd - trimStart`. -/
def ClipOK (reg : List SourceClip) (c : TimelineClip) : Prop :=
  0 ≤ c.startTime ∧ 0 ≤ c.trimStart ∧ c.trimStart < c.trimEnd ∧
  MIN_CLIP_DURATION ≤ c.trimEnd - c.trimStart ∧
  c.duration = c.trimEnd - c.trimStart ∧
  ∃ src, sourceFor reg c.clipId = some src ∧ c.trimEnd ≤ src.duration

/-- Generated timeline-clip ids are pairwise distinct and below the
generation counter. -/
def IdsOK (s : EditorState) : Prop :=
  s.timeline.clips.Pairwise (fun a b => a.id ≠ b.id) ∧
  ∀ c ∈ s.timeline.clips, c.id < s.nextId

/-- A valid editor state: every placed clip satisfies the clip invariant
against the registry, and ids are well-formed. -/
def ValidState (reg : List SourceClip) (s : EditorState) : Prop :=
  (∀ c ∈ s.timeline.clips, ClipOK reg c) ∧ IdsOK s

/-- The maximum of `startTime + (trimEnd - trimStart)` over the clips — the
spec's derived total duration. -/
def maxTrimSpan (clips : List TimelineClip) : ℚ :=
  clips.foldl (fun m c => max m (c.startTime + (c.trimEnd - c.trimStart))) 0

/-- Derived-data consistency: every stored `duration` field matches
`trimEnd - trimStart`, the stored timeline duration is the recomputed
maximum, and no media-library clip is selected (timeline editing mode). -/
def DerivedOK (s : EditorState) : Prop :=
  (∀ c ∈ s.timeline.clips, c.duration = c.trimEnd - c.trimStart) ∧
  s.timeline.duration = maxClipEnd s.timeline.clips ∧
  s.playback.selectedClipId = none

/-! Fold, lookup and id helper lemmas. -/

theorem foldl_max_init_le (f : TimelineClip → ℚ) (clips : List TimelineClip) :
    ∀ i : ℚ, i ≤ clips.foldl (fun m c => max m (f c)) i := by
  induction clips with
  | nil => intro i; simp
  | cons c cs ih => intro i; exact le_trans (le_max_left _ _) (ih _)

theorem foldl_max_of_mem (f : TimelineClip → ℚ) (clips : List TimelineClip)
    (c : TimelineClip) (hc : c ∈ clips) :
    ∀ i : ℚ, f c ≤ clips.foldl (fun m c => max m (f c)) i := by
  induction clips with
  | nil => cases hc
  | cons d ds ih =>
    intro i
    rcases List.mem_cons.mp hc with rfl | hc
    · exact le_trans (le_max_right _ _) (foldl_max_init_le f ds _)
    · exact ih hc _

theorem le_maxClipEnd_of_mem (clips : List TimelineClip) (c : TimelineClip)
    (hc : c ∈ clips) : c.startTime + c.duration ≤ maxClipEnd clips :=
  foldl_max_of_mem (fun c => c.startTime + c.duration) clips c hc 0

theorem maxClipEnd_append_singleton (l : List TimelineClip) (c : TimelineClip) :
    maxClipEnd (l ++ [c]) = max (maxClipEnd l) (c.startTime + c.duration) := by
  simp [maxClipEnd, List.foldl_append]

theorem foldl_max_congr (f g : TimelineClip → ℚ) (clips : List TimelineClip)
    (h : ∀ c ∈ clips, f c = g c) :
    ∀ i : ℚ, clips.foldl (fun m c => max m (f c)) i =
      clips.foldl (fun m c => max m (g c)) i := by
  induction clips with
  | nil => intro i; rfl
  | cons c cs ih =>
    intro i
    have hc := h c (List.mem_cons_self c cs)
    have ih' := ih (fun x hx => h x (List.mem_cons_of_mem c hx))
    simp only [List.foldl_cons, hc, ih']

theorem maxClipEnd_eq_maxTrimSpan (clips : List TimelineClip)
    (h : ∀ c ∈ clips, c.duration = c.trimEnd - c.trimStart) :
    maxClipEnd clips = maxTrimSpan clips := by
  unfold maxClipEnd maxTrimSpan
  exact foldl_max_congr (fun c => c.startTime + c.duration)
    (fun c => c.startTime + (c.trimEnd - c.trimStart)) clips
    (fun c hc => by
      show c.startTime + c.duration = c.startTime + (c.trimEnd - c.trimStart)
      rw [h c hc]) 0

theorem eq_of_same_id : ∀ (l : List TimelineClip),
    l.Pairwise (fun a b => a.id ≠ b.id) → ∀ c C : TimelineClip,
    c ∈ l → C ∈ l → c.id = C.id → c = C := by
  intro l
  induction l with
  | nil => intro _ c C hc _ _; cases hc
  | cons d ds ih =>
    intro h c C hc hC hid
    rcases List.pairwise_cons.mp h with ⟨hd, hds⟩
    rcases List.mem_cons.mp hc with rfl | hc'
    · rcases List.mem_cons.mp hC with rfl | hC'
      · rfl
      · exact absurd hid (hd C hC')
    · rcases List.mem_cons.mp hC with rfl | hC'
      · exact absurd hid.symm (hd c hc')
      · exact ih hds c C hc' hC' hid

theorem findTimelineClip_mem {clips : List TimelineClip} {cid : Nat}
    {C : TimelineClip} (h : findTimelineClip clips cid = some C) :
    C ∈ clips ∧ C.id = cid := by
  unfold findTimelineClip at h
  refine ⟨List.mem_of_find?_eq_some h, ?_⟩
  have := List.find?_some h
  simpa using this

theorem sourceFor_eq {reg : List SourceClip} {cid : Nat} {src : SourceClip}
    (h : sourceFor reg cid = some src) : src.id = cid := by
  unfold sourceFor at h
  have := List.find?_some h
  simpa using this

/-! Snap-search lemmas. -/

theorem findSnapAux_append (raw : ℚ) (l₁ l₂ : List ℚ) :
    ∀ acc, findSnapAux raw (l₁ ++ l₂) acc = findSnapAux raw l₂ (findSnapAux raw l₁ acc) := by
  induction l₁ with
  | nil => intro acc; rfl
  | cons p rest ih =>
    intro acc
    simp only [List.cons_append, findSnapAux, List.append_eq]
    exact ih _

theorem findSnapAux_le (raw : ℚ) :
    ∀ (l : List ℚ) (acc : Option ℚ × ℚ),
      (findSnapAux raw l acc).2 ≤ acc.2 ∧
      ∀ q ∈ l, (findSnapAux raw l acc).2 ≤ |raw - q| := by
  intro l
  induction l with
  | nil => intro acc; simp [findSnapAux]
  | cons p rest ih =>
    intro acc
    rw [findSnapAux]
    by_cases hp : |raw - p| < acc.2
    · rw [if_pos hp]
      refine ⟨le_trans (ih _).1 (le_of_lt hp), ?_⟩
      intro q hq
      rcases List.mem_cons.mp hq with rfl | hq
      · exact (ih _).1
      · exact (ih _).2 q hq
    · rw [if_neg hp]
      refine ⟨(ih _).1, ?_⟩
      intro q hq
      rcases List.mem_cons.mp hq with rfl | hq
      · exact le_trans (ih _).1 (not_lt.mp hp)
      · exact (ih _).2 q hq

theorem findSnapAux_cases (raw : ℚ) :
    ∀ (l : List ℚ) (acc : Option ℚ × ℚ),
      findSnapAux raw l acc = acc ∨
      ∃ p ∈ l, (findSnapAux raw l acc).1 = some p ∧
        (findSnapAux raw l acc).2 = |raw - p| ∧ |raw - p| < acc.2 := by
  intro l
  induction l with
  | nil => intro acc; left; rfl
  | cons p rest ih =>
    intro acc
    rw [findSnapAux]
    by_cases hp : |raw - p| < acc.2
    · rw [if_pos hp]
      rcases ih (some p, |raw - p|) with heq | ⟨q, hq, h1, h2, h3⟩
      · right
        exact ⟨p, List.mem_cons_self p rest, by rw [heq], by rw [heq], hp⟩
      · right
        exact ⟨q, List.mem_cons_of_mem p hq, h1, h2, lt_trans h3 hp⟩
    · rw [if_neg hp]
      rcases ih acc with heq | ⟨q, hq, h1, h2, h3⟩
      · left; exact heq
      · right
        exact ⟨q, List.mem_cons_of_mem p hq, h1, h2, h3⟩

theorem findSnapAux_keep (raw : ℚ) :
    ∀ (l : List ℚ) (acc : Option ℚ × ℚ),
      (∀ q ∈ l, acc.2 ≤ |raw - q|) → findSnapAux raw l acc = acc := by
  intro l
  induction l with
  | nil => intro acc _; rfl
  | cons p rest ih =>
    intro acc h
    rw [findSnapAux, if_neg (not_lt.mpr (h p (List.mem_cons_self p rest)))]
    exact ih acc (fun q hq => h q (List.mem_cons_of_mem p hq))

theorem findSnap_some_spec {raw : ℚ} {points : List ℚ} {p : ℚ}
    (h : findSnap raw points = some p) :
    p ∈ points ∧ |raw - p| < SNAP_THRESHOLD ∧
    ∀ q ∈ points, |raw - p| ≤ |raw - q| := by
  unfold findSnap at h
  rcases findSnapAux_cases raw points (none, SNAP_THRESHOLD) with heq | ⟨q, hq, h1, h2, h3⟩
  · rw [heq] at h; cases h
  · rw [h1] at h
    injection h with h
    subst h
    refine ⟨hq, h3, ?_⟩
    intro q' hq'
    have := (findSnapAux_le raw points (none, SNAP_THRESHOLD)).2 q' hq'
    rwa [h2] at this

theorem findSnap_none_spec {raw : ℚ} {points : List ℚ}
    (h : findSnap raw points = none) :
    ∀ q ∈ points, SNAP_THRESHOLD ≤ |raw - q| := by
  unfold findSnap at h
  rcases findSnapAux_cases raw points (none, SNAP_THRESHOLD) with heq | ⟨q, hq, h1, h2, h3⟩
  · intro q hq
    have := (findSnapAux_le raw points (none, SNAP_THRESHOLD)).2 q hq
    rwa [heq] at this
  · rw [h1] at h; cases h

theorem findSnap_first (raw : ℚ) (l₁ : List ℚ) (p : ℚ) (l₂ : List ℚ)
    (h1 : |raw - p| < SNAP_THRESHOLD)
    (h2 : ∀ q ∈ l₁, |raw - p| < |raw - q|)
    (h3 : ∀ q ∈ l₂, |raw - p| ≤ |raw - q|) :
    findSnap raw (l₁ ++ p :: l₂) = some p := by
  unfold findSnap
  rw [findSnapAux_append]
  have hlt : |raw - p| < (findSnapAux raw l₁ (none, SNAP_THRESHOLD)).2 := by
    rcases findSnapAux_cases raw l₁ (none, SNAP_THRESHOLD) with heq | ⟨q, hq, hq1, hq2, _⟩
    · rw [heq]; exact h1
    · rw [hq2]; exact h2 q hq
  rw [findSnapAux, if_pos hlt,
    findSnapAux_keep raw l₂ (some p, |raw - p|) (fun q hq => h3 q hq)]

/-! Trim-gesture invariants. -/

/-- Bounds on the final trim candidates of an active trim drag, depending on
the grabbed side. -/
def TrimFinalOK (d : TrimDrag) : Prop :=
  match d.side with
  | .tStart =>
    d.finalTrimEnd = d.baseline.trimEnd ∧ 0 ≤ d.finalTrimStart ∧
    d.finalTrimStart ≤ d.baseline.trimEnd - MIN_CLIP_DURATION ∧ 0 ≤ d.finalStartTime
  | .tEnd =>
    d.finalTrimStart = d.baseline.trimStart ∧
    d.finalStartTime = d.baseline.startTime ∧
    d.baseline.trimStart + MIN_CLIP_DURATION ≤ d.finalTrimEnd ∧
    d.finalTrimEnd ≤ d.srcDuration

/-- Well-formedness of an active trim drag: the baseline satisfies the clip
invariant against its source, and the final candidates are in bounds. -/
def TrimDragOK (reg : List SourceClip) (d : TrimDrag) : Prop :=
  0 ≤ d.baseline.startTime ∧ 0 ≤ d.baseline.trimStart ∧
  MIN_CLIP_DURATION ≤ d.baseline.trimEnd - d.baseline.trimStart ∧
  d.baseline.trimEnd ≤ d.srcDuration ∧
  (∃ src, sourceFor reg d.baseline.clipId = some src ∧ src.duration = d.srcDuration) ∧
  TrimFinalOK d

theorem trimMouseMove_const (d : TrimDrag) (dx zoom : ℚ) (s : EditorState) :
    (trimMouseMove d dx zoom s).1.clipId = d.clipId ∧
    (trimMouseMove d dx zoom s).1.side = d.side ∧
    (trimMouseMove d dx zoom s).1.baseline = d.baseline ∧
    (trimMouseMove d dx zoom s).1.srcDuration = d.srcDuration ∧
    (trimMouseMove d dx zoom s).2.timeline = s.timeline ∧
    (trimMouseMove d dx zoom s).2.nextId = s.nextId ∧
    (trimMouseMove d dx zoom s).2.playback.selectedClipId = s.playback.selectedClipId := by
  cases h : d.side <;> simp [trimMouseMove, h]

theorem trimMouseMove_dragOK (reg : List SourceClip) (d : TrimDrag)
    (dx zoom : ℚ) (s : EditorState) (h : TrimDragOK reg d) :
    TrimDragOK reg (trimMouseMove d dx zoom s).1 := by
  obtain ⟨h1, h2, h3, h4, h5, h6⟩ := h
  cases hs : d.side with
  | tStart =>
    rw [TrimFinalOK, hs] at h6
    obtain ⟨f1, f2, f3, f4⟩ := h6
    refine ⟨?_, ?_, ?_, ?_, ?_, ?_⟩ <;>
      simp only [trimMouseMove, hs]
    · exact h1
    · exact h2
    · exact h3
    · exact h4
    · exact h5
    · rw [TrimFinalOK]
      refine ⟨f1, le_max_left _ _, ?_, le_max_left _ _⟩
      refine max_le ?_ (min_le_right _ _)
      linarith
  | tEnd =>
    rw [TrimFinalOK, hs] at h6
    obtain ⟨f1, f2, f3, f4⟩ := h6
    refine ⟨?_, ?_, ?_, ?_, ?_, ?_⟩ <;>
      simp only [trimMouseMove, hs]
    · exact h1
    · exact h2
    · exact h3
    · exact h4
    · exact h5
    · rw [TrimFinalOK]
      refine ⟨f1, f2, le_max_left _ _, ?_⟩
      refine max_le ?_ (min_le_right _ _)
      linarith

theorem trimMoves_spec (reg : List SourceClip) :
    ∀ (moves : List ℚ) (d : TrimDrag) (zoom : ℚ) (s : EditorState),
      (trimMoves d zoom moves s).1.clipId = d.clipId ∧
      (trimMoves d zoom moves s).1.side = d.side ∧
      (trimMoves d zoom moves s).1.baseline = d.baseline ∧
      (trimMoves d zoom moves s).1.srcDuration = d.srcDuration ∧
      (trimMoves d zoom moves s).2.timeline = s.timeline ∧
      (trimMoves d zoom moves s).2.nextId = s.nextId ∧
      (trimMoves d zoom moves s).2.playback.selectedClipId = s.playback.selectedClipId ∧
      (TrimDragOK reg d → TrimDragOK reg (trimMoves d zoom moves s).1) := by
  intro moves
  induction moves with
  | nil =>
    intro d zoom s
    exact ⟨rfl, rfl, rfl, rfl, rfl, rfl, rfl, fun h => h⟩
  | cons dx rest ih =>
    intro d zoom s
    have hstep : trimMoves d zoom (dx :: rest) s =
        trimMoves (trimMouseMove d dx zoom s).1 zoom rest (trimMouseMove d dx zoom s).2 := rfl
    obtain ⟨c1, c2, c3, c4, c5, c6, c7⟩ := trimMouseMove_const d dx zoom s
    obtain ⟨i1, i2, i3, i4, i5, i6, i7, i8⟩ :=
      ih (trimMouseMove d dx zoom s).1 zoom (trimMouseMove d dx zoom s).2
    rw [hstep]
    refine ⟨i1.trans c1, i2.trans c2, i3.trans c3, i4.trans c4,
      i5.trans c5, i6.trans c6, i7.trans c7, ?_⟩
    intro h
    exact i8 (trimMouseMove_dragOK reg d dx zoom s h)

theorem startTrimDrag_spec {reg : List SourceClip} {cid : Nat} {side : TrimSide}
    {s : EditorState} {d : TrimDrag} (h : startTrimDrag reg cid side s = some d) :
    d.clipId = cid ∧ d.side = side ∧ d.baseline ∈ s.timeline.clips ∧
    d.baseline.id = cid ∧
    (∃ src, sourceFor reg d.baseline.clipId = some src ∧ d.srcDuration = src.duration) ∧
    d.finalTrimStart = d.baseline.trimStart ∧ d.finalTrimEnd = d.baseline.trimEnd ∧
    d.finalStartTime = d.baseline.startTime := by
  unfold startTrimDrag at h
  split at h
  next => cases h
  next clip hfind =>
    split at h
    next => cases h
    next src hsrc =>
      injection h with h
      subst h
      obtain ⟨hm, hcid⟩ := findTimelineClip_mem hfind
      exact ⟨rfl, rfl, hm, hcid, ⟨src, hsrc, rfl⟩, rfl, rfl, rfl⟩

theorem startTrimDrag_dragOK {reg : List SourceClip} {cid : Nat} {side : TrimSide}
    {s : EditorState} {d : TrimDrag}
    (hv : ∀ c ∈ s.timeline.clips, ClipOK reg c)
    (h : startTrimDrag reg cid side s = some d) : TrimDragOK reg d := by
  obtain ⟨_, _, hmem, _, ⟨src, hsrc, hdur⟩, hf1, hf2, hf3⟩ := startTrimDrag_spec h
  obtain ⟨k1, k2, k3, k4, _, src', hsrc', hle⟩ := hv d.baseline hmem
  have hsame : src' = src := by
    rw [hsrc] at hsrc'
    injection hsrc'.symm
  subst hsame
  have hend : d.baseline.trimEnd ≤ d.srcDuration := by rw [hdur]; exact hle
  refine ⟨k1, k2, k4, hend, ⟨src', hsrc, hdur.symm⟩, ?_⟩
  rw [TrimFinalOK]
  cases hs : d.side with
  | tStart =>
    rw [hf1, hf2, hf3]
    exact ⟨rfl, k2, by linarith, k1⟩
  | tEnd =>
    rw [hf1, hf2, hf3]
    exact ⟨rfl, rfl, by linarith, hend⟩

theorem validState_congr (reg : List SourceClip) (s s' : EditorState)
    (ht : s'.timeline.clips = s.timeline.clips) (hn : s'.nextId = s.nextId)
    (h : ValidState reg s) : ValidState reg s' := by
  unfold ValidState IdsOK at h ⊢
  rw [ht, hn]
  exact h

theorem trimMouseUp_valid (reg : List SourceClip) (d : TrimDrag) (s : EditorState)
    (hv : ValidState reg s) (hd : TrimDragOK reg d)
    (hmem : d.baseline ∈ s.timeline.clips) (hid : d.baseline.id = d.clipId) :
    ValidState reg (trimMouseUp d s) := by
  unfold ValidState IdsOK at hv ⊢
  obtain ⟨hclips, hpw, hbound⟩ := hv
  obtain ⟨hb1, hb2, hb3, hb4, ⟨src, hsrc, hsdur⟩, hfin⟩ := hd
  have hMIN : (0:ℚ) < MIN_CLIP_DURATION := by norm_num [MIN_CLIP_DURATION]
  refine ⟨?_, ?_, ?_⟩
  · intro x hx
    simp only [trimMouseUp, List.mem_map] at hx
    obtain ⟨c, hc, rfl⟩ := hx
    by_cases hcid : (c.id == d.clipId) = true
    · have hceq : c = d.baseline := by
        refine eq_of_same_id _ hpw c d.baseline hc hmem ?_
        rw [hid]
        exact beq_iff_eq.mp hcid
      subst hceq
      rw [if_pos hcid]
      cases hside : d.side with
      | tStart =>
        rw [TrimFinalOK, hside] at hfin
        obtain ⟨f1, f2, f3, f4⟩ := hfin
        exact ⟨f4, f2, by rw [f1]; linarith, by rw [f1]; linarith, rfl,
          src, hsrc, by rw [f1, hsdur]; exact hb4⟩
      | tEnd =>
        rw [TrimFinalOK, hside] at hfin
        obtain ⟨f1, f2, f3, f4⟩ := hfin
        exact ⟨by rw [f2]; exact hb1, by rw [f1]; exact hb2,
          by rw [f1]; linarith, by rw [f1]; linarith, rfl,
          src, hsrc, by rw [hsdur]; exact f4⟩
    · rw [if_neg hcid]
      exact hclips c hc
  · simp only [trimMouseUp]
    rw [List.pairwise_map]
    refine List.Pairwise.imp ?_ hpw
    intro a b hab
    by_cases ha : (a.id == d.clipId) = true <;>
      by_cases hb : (b.id == d.clipId) = true <;>
      simp [ha, hb] <;> exact hab
  · intro x hx
    simp only [trimMouseUp, List.mem_map] at hx
    obtain ⟨c, hc, rfl⟩ := hx
    by_cases h : (c.id == d.clipId) = true <;> simp [trimMouseUp, h] <;>
      exact hbound c hc

theorem applyTrimGesture_valid (reg : List SourceClip) (cid : Nat)
    (side : TrimSide) (zoom : ℚ) (moves : List ℚ) (s : EditorState)
    (hv : ValidState reg s) :
    ValidState reg (applyTrimGesture reg cid side zoom moves s) := by
  unfold applyTrimGesture
  cases h : startTrimDrag reg cid side s with
  | none => exact hv
  | some d0 =>
    show ValidState reg
      (trimMouseUp (trimMoves d0 zoom moves s).1 (trimMoves d0 zoom moves s).2)
    obtain ⟨m1, m2, m3, m4, m5, m6, m7, m8⟩ := trimMoves_spec reg moves d0 zoom s
    obtain ⟨s1, s2, s3, s4, _, _, _, _⟩ := startTrimDrag_spec h
    have hv' : ValidState reg (trimMoves d0 zoom moves s).2 :=
      validState_congr reg s _ (by rw [m5]) m6 hv
    have hd' : TrimDragOK reg (trimMoves d0 zoom moves s).1 :=
      m8 (startTrimDrag_dragOK hv.1 h)
    refine trimMouseUp_valid reg _ _ hv' hd' ?_ ?_
    · rw [m5, m3]
      exact s3
    · rw [m3, m1, s4, s1]

/-! Move-gesture invariants. -/

theorem clipOK_bounds {reg : List SourceClip} {c : TimelineClip}
    (h : ClipOK reg c) : 0 ≤ c.startTime ∧ 0 ≤ c.duration := by
  obtain ⟨k1, _, _, k4, k5, _⟩ := h
  refine ⟨k1, ?_⟩
  rw [k5]
  have : (0:ℚ) < MIN_CLIP_DURATION := by norm_num [MIN_CLIP_DURATION]
  linarith

theorem mem_foldr_startEnd : ∀ (l : List TimelineClip) (p : ℚ),
    p ∈ l.foldr (fun c acc => c.startTime :: (c.startTime + c.duration) :: acc) [] →
    ∃ c ∈ l, p = c.startTime ∨ p = c.startTime + c.duration := by
  intro l
  induction l with
  | nil => intro p h; simp at h
  | cons c cs ih =>
    intro p h
    simp only [List.foldr_cons, List.mem_cons] at h
    rcases h with rfl | rfl | h
    · exact ⟨c, List.mem_cons_self c cs, Or.inl rfl⟩
    · exact ⟨c, List.mem_cons_self c cs, Or.inr rfl⟩
    · obtain ⟨c', hc', hp⟩ := ih p h
      exact ⟨c', List.mem_cons_of_mem c hc', hp⟩

theorem snapPointsFor_mem {clips : List TimelineClip} {cid tr : Nat} {p : ℚ}
    (h : p ∈ snapPointsFor clips cid tr) :
    p = 0 ∨ ∃ c ∈ clips, p = c.startTime ∨ p = c.startTime + c.duration := by
  unfold snapPointsFor at h
  rcases List.mem_append.mp h with h | h
  · obtain ⟨c, hc, hp⟩ := mem_foldr_startEnd _ p h
    exact Or.inr ⟨c, (List.mem_filter.mp hc).1, hp⟩
  · left; simpa using h

theorem moveMouseMove_const (d : MoveDrag) (dx dy zoom : ℚ) (s : EditorState) :
    (moveMouseMove d dx dy zoom s).1.clipId = d.clipId ∧
    (moveMouseMove d dx dy zoom s).2.timeline = s.timeline ∧
    (moveMouseMove d dx dy zoom s).2.nextId = s.nextId ∧
    (moveMouseMove d dx dy zoom s).2.playback.selectedClipId = s.playback.selectedClipId := by
  simp only [moveMouseMove]
  cases h : findSnap (moveRawStartTime d dx zoom)
      (snapPointsFor s.timeline.clips d.clipId (moveTargetTrack d dy)) <;>
    simp [h]

theorem moveMouseMove_nonneg (d : MoveDrag) (dx dy zoom : ℚ) (s : EditorState)
    (hcl : ∀ c ∈ s.timeline.clips, 0 ≤ c.startTime ∧ 0 ≤ c.duration) :
    0 ≤ (moveMouseMove d dx dy zoom s).1.finalStartTime := by
  simp only [moveMouseMove]
  cases h : findSnap (moveRawStartTime d dx zoom)
      (snapPointsFor s.timeline.clips d.clipId (moveTargetTrack d dy)) with
  | none =>
    simp only [h]
    exact le_max_left _ _
  | some p =>
    simp only [h]
    obtain ⟨hp, _, _⟩ := findSnap_some_spec h
    rcases snapPointsFor_mem hp with rfl | ⟨c, hc, hp'⟩
    · exact le_refl 0
    · rcases hp' with rfl | rfl
      · exact (hcl c hc).1
      · have := hcl c hc
        linarith [this.1, this.2]

theorem moveMoves_spec :
    ∀ (moves : List (ℚ × ℚ)) (d : MoveDrag) (zoom : ℚ) (s : EditorState),
      (moveMoves d zoom moves s).1.clipId = d.clipId ∧
      (moveMoves d zoom moves s).2.timeline = s.timeline ∧
      (moveMoves d zoom moves s).2.nextId = s.nextId ∧
      (moveMoves d zoom moves s).2.playback.selectedClipId = s.playback.selectedClipId ∧
      ((∀ c ∈ s.timeline.clips, 0 ≤ c.startTime ∧ 0 ≤ c.duration) →
        0 ≤ d.finalStartTime → 0 ≤ (moveMoves d zoom moves s).1.finalStartTime) := by
  intro moves
  induction moves with
  | nil =>
    intro d zoom s
    exact ⟨rfl, rfl, rfl, rfl, fun _ h => h⟩
  | cons mv rest ih =>
    intro d zoom s
    have hstep : moveMoves d zoom (mv :: rest) s =
        moveMoves (moveMouseMove d mv.1 mv.2 zoom s).1 zoom rest
          (moveMouseMove d mv.1 mv.2 zoom s).2 := rfl
    obtain ⟨c1, c2, c3, c4⟩ := moveMouseMove_const d mv.1 mv.2 zoom s
    obtain ⟨i1, i2, i3, i4, i5⟩ :=
      ih (moveMouseMove d mv.1 mv.2 zoom s).1 zoom (moveMouseMove d mv.1 mv.2 zoom s).2
    rw [hstep]
    refine ⟨i1.trans c1, i2.trans c2, i3.trans c3, i4.trans c4, ?_⟩
    intro hcl _
    refine i5 ?_ ?_
    · rw [c2]; exact hcl
    · exact moveMouseMove_nonneg d mv.1 mv.2 zoom s hcl

theorem startClipDrag_spec {button cid : Nat} {s : EditorState} {d : MoveDrag}
    (h : startClipDrag button cid s = some d) :
    d.clipId = cid ∧ d.original ∈ s.timeline.clips ∧ d.original.id = cid ∧
    d.finalStartTime = d.original.startTime ∧ d.finalTrack = d.original.track := by
  unfold startClipDrag at h
  split at h
  · cases h
  · split at h
    next => cases h
    next clip hfind =>
      injection h with h
      subst h
      obtain ⟨hm, hcid⟩ := findTimelineClip_mem hfind
      exact ⟨rfl, hm, hcid, rfl, rfl⟩

theorem moveMouseUp_valid (reg : List SourceClip) (d : MoveDrag) (s : EditorState)
    (hv : ValidState reg s) (hnn : 0 ≤ d.finalStartTime) :
    ValidState reg (moveMouseUp d s) := by
  unfold ValidState IdsOK at hv ⊢
  obtain ⟨hclips, hpw, hbound⟩ := hv
  refine ⟨?_, ?_, ?_⟩
  · intro x hx
    simp only [moveMouseUp, List.mem_map] at hx
    obtain ⟨c, hc, rfl⟩ := hx
    by_cases hcid : (c.id == d.clipId) = true
    · rw [if_pos hcid]
      obtain ⟨_, k2, k3, k4, k5, src, hsrc, hle⟩ := hclips c hc
      exact ⟨hnn, k2, k3, k4, k5, src, hsrc, hle⟩
    · rw [if_neg hcid]
      exact hclips c hc
  · simp only [moveMouseUp]
    rw [List.pairwise_map]
    refine List.Pairwise.imp ?_ hpw
    intro a b hab
    by_cases ha : (a.id == d.clipId) = true <;>
      by_cases hb : (b.id == d.clipId) = true <;>
      simp [ha, hb] <;> exact hab
  · intro x hx
    simp only [moveMouseUp, List.mem_map] at hx
    obtain ⟨c, hc, rfl⟩ := hx
    by_cases h : (c.id == d.clipId) = true <;> simp [moveMouseUp, h] <;>
      exact hbound c hc

theorem applyMoveGesture_valid (reg : List SourceClip) (button cid : Nat)
    (zoom : ℚ) (moves : List (ℚ × ℚ)) (s : EditorState) (hv : ValidState reg s) :
    ValidState reg (applyMoveGesture button cid zoom moves s) := by
  unfold applyMoveGesture
  cases h : startClipDrag button cid s with
  | none => exact hv
  | some d0 =>
    show ValidState reg
      (moveMouseUp (moveMoves d0 zoom moves s).1 (moveMoves d0 zoom moves s).2)
    obtain ⟨m1, m2, m3, m4, m5⟩ := moveMoves_spec moves d0 zoom s
    obtain ⟨_, s2, _, s4, _⟩ := startClipDrag_spec h
    have hv' := validState_congr reg s _ (by rw [m2]) m3 hv
    refine moveMouseUp_valid reg _ _ hv' ?_
    refine m5 (fun c hc => clipOK_bounds (hv.1 c hc)) ?_
    rw [s4]
    exact (clipOK_bounds (hv.1 d0.original s2)).1

/-! Split and delete preserve validity. -/

theorem splitTimelineClip_valid (reg : List SourceClip) (s : EditorState)
    (hv : ValidState reg s) : ValidState reg (splitTimelineClip s) := by
  unfold splitTimelineClip
  split
  next => exact hv
  next selectedId hsel =>
    split
    next => exact hv
    next clip hfind =>
      dsimp only
      split
      next => exact hv
      next hguard1 =>
        split
        next => exact hv
        next hguard2 =>
          push_neg at hguard1 hguard2
          obtain ⟨hg1, hg2⟩ := hguard1
          obtain ⟨hg3, hg4⟩ := hguard2
          obtain ⟨hm, _⟩ := findTimelineClip_mem hfind
          unfold ValidState IdsOK at hv ⊢
          obtain ⟨hclips, hpw, hbound⟩ := hv
          obtain ⟨k1, k2, k3, k4, k5, src, hsrc, hle⟩ := hclips clip hm
          have hMIN : (0:ℚ) < MIN_CLIP_DURATION := by norm_num [MIN_CLIP_DURATION]
          refine ⟨?_, ?_, ?_⟩
          · intro x hx
            rcases List.mem_append.mp hx with hx | hx
            · exact hclips x (List.mem_filter.mp hx).1
            · rcases List.mem_cons.mp hx with rfl | hx
              · unfold ClipOK
                dsimp only
                exact ⟨k1, k2, by linarith, by linarith, by ring, src, hsrc, by linarith⟩
              · rcases List.mem_cons.mp hx with rfl | hx
                · unfold ClipOK
                  dsimp only
                  refine ⟨by linarith, by linarith, by linarith, by linarith,
                    by rw [k5]; ring, src, hsrc, hle⟩
                · cases hx
          · rw [List.pairwise_append]
            refine ⟨hpw.filter _, ?_, ?_⟩
            · refine List.Pairwise.cons ?_ (List.Pairwise.cons ?_ List.Pairwise.nil)
              · intro b hb
                rcases List.mem_cons.mp hb with rfl | hb
                · dsimp only
                  omega
                · cases hb
              · intro b hb
                cases hb
            · intro a ha b hb
              have hab : a.id < s.nextId := hbound a (List.mem_filter.mp ha).1
              rcases List.mem_cons.mp hb with rfl | hb
              · dsimp only
                omega
              · rcases List.mem_cons.mp hb with rfl | hb
                · dsimp only
                  omega
                · cases hb
          · intro x hx
            dsimp only at hx ⊢
            rcases List.mem_append.mp hx with hx | hx
            · have := hbound x (List.mem_filter.mp hx).1
              omega
            · rcases List.mem_cons.mp hx with rfl | hx
              · dsimp only
                omega
              · rcases List.mem_cons.mp hx with rfl | hx
                · dsimp only
                  omega
                · cases hx

theorem deleteSelected_valid (reg : List SourceClip) (s : EditorState)
    (hv : ValidState reg s) : ValidState reg (deleteSelectedTimelineClip s) := by
  unfold deleteSelectedTimelineClip
  split
  next => exact hv
  next selectedId hsel =>
    unfold ValidState IdsOK at hv ⊢
    obtain ⟨hclips, hpw, hbound⟩ := hv
    refine ⟨?_, hpw.filter _, ?_⟩
    · intro c hc
      exact hclips c (List.mem_filter.mp hc).1
    · intro c hc
      exact hbound c (List.mem_filter.mp hc).1

theorem applyOp_valid (reg : List SourceClip) (s : EditorState) (op : EditOp)
    (hv : ValidState reg s) (hnd : op.noDrop) :
    ValidState reg (applyOp reg s op) := by
  cases op with
  | drop srcId tr dropX zoom => exact hnd.elim
  | trim cid side zoom moves => exact applyTrimGesture_valid reg cid side zoom moves s hv
  | split selId t =>
    exact splitTimelineClip_valid reg _ (validState_congr reg s _ rfl rfl hv)
  | move cid zoom moves => exact applyMoveGesture_valid reg 0 cid zoom moves s hv
  | delete selId =>
    exact deleteSelected_valid reg _ (validState_congr reg s _ rfl rfl hv)

theorem applyOps_valid (reg : List SourceClip) :
    ∀ (ops : List EditOp) (s : EditorState), ValidState reg s →
      (∀ op ∈ ops, op.noDrop) → ValidState reg (applyOps reg s ops) := by
  intro ops
  induction ops with
  | nil => intro s hv _; exact hv
  | cons op rest ih =>
    intro s hv hnd
    have hstep : applyOps reg s (op :: rest) = applyOps reg (applyOp reg s op) rest := rfl
    rw [hstep]
    exact ih _ (applyOp_valid reg s op hv (hnd op (List.mem_cons_self op rest)))
      (fun o ho => hnd o (List.mem_cons_of_mem _ ho))

/-- C1: for every sequence of trim, split, move, and delete operations
starting from a valid timeline, every resulting timeline clip satisfies
`0 ≤ trimStart < trimEnd ≤ sourceDuration`,
`trimEnd - trimStart ≥ MIN_CLIP_DURATION`, and `startTime ≥ 0`. -/
theorem edit_ops_preserve_clip_invariants
    (reg : List SourceClip) (s : EditorState) (ops : List EditOp)
    (hv : ValidState reg s) (hops : ∀ op ∈ ops, op.noDrop) :
    ∀ c ∈ (applyOps reg s ops).timeline.clips,
      ∃ src, sourceFor reg c.clipId = some src ∧
        0 ≤ c.trimStart ∧ c.trimStart < c.trimEnd ∧ c.trimEnd ≤ src.duration ∧
        MIN_CLIP_DURATION ≤ c.trimEnd - c.trimStart ∧ 0 ≤ c.startTime := by
  intro c hc
  obtain ⟨k1, k2, k3, k4, _, src, hsrc, hle⟩ :=
    (applyOps_valid reg ops s hv hops).1 c hc
  exact ⟨src, hsrc, k2, k3, hle, k4, k1⟩

/-- Concrete registry used by the C1 witness: one 10-second source clip. -/
def regW1 : List SourceClip := [{ id := 1, duration := 10 }]

/-- Concrete starting state used by the C1 witness: that source placed at 0. -/
def stateW1 : EditorState :=
  { timeline :=
      { clips := [{ id := 1, clipId := 1, track := 0, startTime := 0,
                    trimStart := 0, trimEnd := 10, duration := 10 }],
        playhead := 0, duration := 10 },
    playback :=
      { isPlaying := false, currentTime := 0, selectedClipId := none,
        selectedTimelineClipId := none },
    videoTime := 0, nextId := 2 }

/-- Concrete operation list used by the C1 witness: a split at `t = 4`. -/
def opsW1 : List EditOp := [.split 1 4]

/-- Witness for C1 at a concrete valid state and a concrete split. -/
theorem edit_ops_preserve_clip_invariants_witness :
    ValidState regW1 stateW1 ∧ (∀ op ∈ opsW1, op.noDrop) ∧
    ∀ c ∈ (applyOps regW1 stateW1 opsW1).timeline.clips,
      ∃ src, sourceFor regW1 c.clipId = some src ∧
        0 ≤ c.trimStart ∧ c.trimStart < c.trimEnd ∧ c.trimEnd ≤ src.duration ∧
        MIN_CLIP_DURATION ≤ c.trimEnd - c.trimStart ∧ 0 ≤ c.startTime := by
  have hv : ValidState regW1 stateW1 := by
    refine ⟨?_, ?_, ?_⟩
    · intro c hc
      simp only [stateW1, List.mem_singleton] at hc
      subst hc
      refine ⟨le_refl 0, le_refl 0, by norm_num, by norm_num [MIN_CLIP_DURATION],
        by norm_num, ⟨{ id := 1, duration := 10 }, rfl, by norm_num⟩⟩
    · simp [stateW1]
    · intro c hc
      simp only [stateW1, List.mem_singleton] at hc
      subst hc
      decide
  have hops : ∀ op ∈ opsW1, op.noDrop := by
    intro op hop
    simp only [opsW1, List.mem_singleton] at hop
    subst hop
    trivial
  exact ⟨hv, hops, edit_ops_preserve_clip_invariants regW1 stateW1 opsW1 hv hops⟩

/-! Derived-duration consistency across all mutating operations. -/

theorem derivedOK_congr (s s' : EditorState) (ht : s'.timeline = s.timeline)
    (hp : s'.playback.selectedClipId = s.playback.selectedClipId)
    (h : DerivedOK s) : DerivedOK s' := by
  unfold DerivedOK at h ⊢
  rw [ht, hp]
  exact h

theorem handleDrop_derived (reg : List SourceClip) (srcId tr : Nat)
    (dropX zoom : ℚ) (s : EditorState) (h : DerivedOK s) :
    DerivedOK (handleDrop reg srcId tr dropX zoom s) := by
  unfold handleDrop
  split
  next => exact h
  next data hdata =>
    obtain ⟨h1, h2, h3⟩ := h
    refine ⟨?_, ?_, h3⟩
    · intro c hc
      dsimp only at hc
      rcases List.mem_append.mp hc with hc | hc
      · exact h1 c hc
      · rcases List.mem_cons.mp hc with rfl | hc
        · dsimp only
          ring
        · cases hc
    · dsimp only
      rw [maxClipEnd_append_singleton, ← h2]

theorem trimMouseUp_derived (d : TrimDrag) (s : EditorState) (h : DerivedOK s) :
    DerivedOK (trimMouseUp d s) := by
  obtain ⟨h1, _, h3⟩ := h
  refine ⟨?_, rfl, h3⟩
  intro x hx
  simp only [trimMouseUp, List.mem_map] at hx
  obtain ⟨c, hc, rfl⟩ := hx
  by_cases hcid : (c.id == d.clipId) = true
  · rw [if_pos hcid]
  · rw [if_neg hcid]
    exact h1 c hc

theorem moveMouseUp_derived (d : MoveDrag) (s : EditorState) (h : DerivedOK s) :
    DerivedOK (moveMouseUp d s) := by
  obtain ⟨h1, _, h3⟩ := h
  refine ⟨?_, rfl, h3⟩
  intro x hx
  simp only [moveMouseUp, List.mem_map] at hx
  obtain ⟨c, hc, rfl⟩ := hx
  by_cases hcid : (c.id == d.clipId) = true
  · rw [if_pos hcid]
    dsimp only
    exact h1 c hc
  · rw [if_neg hcid]
    exact h1 c hc

theorem splitTimelineClip_derived (s : EditorState) (h : DerivedOK s) :
    DerivedOK (splitTimelineClip s) := by
  unfold splitTimelineClip
  split
  next => exact h
  next selectedId hsel =>
    split
    next => exact h
    next clip hfind =>
      dsimp only
      split
      next => exact h
      next =>
        split
        next => exact h
        next =>
          obtain ⟨h1, h2, h3⟩ := h
          obtain ⟨hm, _⟩ := findTimelineClip_mem hfind
          refine ⟨?_, rfl, h3⟩
          intro x hx
          dsimp only at hx
          rcases List.mem_append.mp hx with hx | hx
          · exact h1 x (List.mem_filter.mp hx).1
          · rcases List.mem_cons.mp hx with rfl | hx
            · dsimp only
              ring
            · rcases List.mem_cons.mp hx with rfl | hx
              · dsimp only
                rw [h1 clip hm]
                ring
              · cases hx

theorem deleteSelected_derived (s : EditorState) (h : DerivedOK s) :
    DerivedOK (deleteSelectedTimelineClip s) := by
  unfold deleteSelectedTimelineClip
  split
  next => exact h
  next selectedId hsel =>
    obtain ⟨h1, _, h3⟩ := h
    refine ⟨?_, rfl, h3⟩
    intro c hc
    exact h1 c (List.mem_filter.mp hc).1

theorem applyTrimGesture_derived (reg : List SourceClip) (cid : Nat)
    (side : TrimSide) (zoom : ℚ) (moves : List ℚ) (s : EditorState)
    (h : DerivedOK s) : DerivedOK (applyTrimGesture reg cid side zoom moves s) := by
  unfold applyTrimGesture
  cases hd : startTrimDrag reg cid side s with
  | none => exact h
  | some d0 =>
    show DerivedOK
      (trimMouseUp (trimMoves d0 zoom moves s).1 (trimMoves d0 zoom moves s).2)
    obtain ⟨_, _, _, _, m5, _, m7, _⟩ := trimMoves_spec reg moves d0 zoom s
    exact trimMouseUp_derived _ _ (derivedOK_congr s _ m5 m7 h)

theorem applyMoveGesture_derived (button cid : Nat) (zoom : ℚ)
    (moves : List (ℚ × ℚ)) (s : EditorState) (h : DerivedOK s) :
    DerivedOK (applyMoveGesture button cid zoom moves s) := by
  unfold applyMoveGesture
  cases hd : startClipDrag button cid s with
  | none => exact h
  | some d0 =>
    show DerivedOK
      (moveMouseUp (moveMoves d0 zoom moves s).1 (moveMoves d0 zoom moves s).2)
    obtain ⟨_, m2, _, m4, _⟩ := moveMoves_spec moves d0 zoom s
    exact moveMouseUp_derived _ _ (derivedOK_congr s _ m2 m4 h)

theorem applyOp_derived (reg : List SourceClip) (s : EditorState) (op : EditOp)
    (h : DerivedOK s) : DerivedOK (applyOp reg s op) := by
  cases op with
  | drop srcId tr dropX zoom => exact handleDrop_derived reg srcId tr dropX zoom s h
  | trim cid side zoom moves => exact applyTrimGesture_derived reg cid side zoom moves s h
  | split selId t => exact splitTimelineClip_derived _ (derivedOK_congr s _ rfl rfl h)
  | move cid zoom moves => exact applyMoveGesture_derived 0 cid zoom moves s h
  | delete selId => exact deleteSelected_derived _ (derivedOK_congr s _ rfl rfl h)

theorem applyOps_derived (reg : List SourceClip) :
    ∀ (ops : List EditOp) (s : EditorState), DerivedOK s →
      DerivedOK (applyOps reg s ops) := by
  intro ops
  induction ops with
  | nil => intro s h; exact h
  | cons op rest ih =>
    intro s h
    exact ih (applyOp reg s op) (applyOp_derived reg s op h)

/-- C3: after every mutating operation (any prefix of any sequence of
drop/trim/split/move/delete operations) the stored timeline duration equals
the maximum over all clips of `startTime + (trimEnd - trimStart)`, and the
effective (displayed) total duration is that maximum floored at 10 seconds —
never stale across a mutation boundary. -/
theorem totalDuration_never_stale
    (reg : List SourceClip) (s : EditorState) (ops : List EditOp)
    (videoPresent : Bool) (h : DerivedOK s) (n : Nat) :
    (applyOps reg s (ops.take n)).timeline.duration =
      maxTrimSpan (applyOps reg s (ops.take n)).timeline.clips ∧
    effectiveTimelineDuration reg (applyOps reg s (ops.take n)) videoPresent =
      max (maxTrimSpan (applyOps reg s (ops.take n)).timeline.clips) 10 := by
  obtain ⟨h1, h2, h3⟩ := applyOps_derived reg (ops.take n) s h
  have hms := maxClipEnd_eq_maxTrimSpan _ h1
  constructor
  · rw [h2, hms]
  · unfold effectiveTimelineDuration
    rw [h3]
    dsimp only
    rw [h2, hms]

/-- Concrete registry for the C3 witness: one 12-second source clip. -/
def regW3 : List SourceClip := [{ id := 1, duration := 12 }]

/-- Concrete empty starting state for the C3 witness. -/
def stateW3 : EditorState :=
  { timeline := { clips := [], playhead := 0, duration := 0 },
    playback :=
      { isPlaying := false, currentTime := 0, selectedClipId := none,
        selectedTimelineClipId := none },
    videoTime := 0, nextId := 0 }

/-- Concrete operations for the C3 witness: drop the 12s clip at `x = 0`. -/
def opsW3 : List EditOp := [.drop 1 0 0 1]

/-- Witness for C3: after dropping a 12s clip on the empty timeline the
stored duration is the clip maximum and the effective duration its 10s floor. -/
theorem totalDuration_never_stale_witness :
    DerivedOK stateW3 ∧
    ((applyOps regW3 stateW3 (opsW3.take 1)).timeline.duration =
        maxTrimSpan (applyOps regW3 stateW3 (opsW3.take 1)).timeline.clips ∧
      effectiveTimelineDuration regW3 (applyOps regW3 stateW3 (opsW3.take 1)) false =
        max (maxTrimSpan (applyOps regW3 stateW3 (opsW3.take 1)).timeline.clips) 10) := by
  have h : DerivedOK stateW3 := by
    refine ⟨?_, rfl, rfl⟩
    intro c hc
    simp [stateW3] at hc
  exact ⟨h, totalDuration_never_stale regW3 stateW3 opsW3 false h 1⟩

/-- C2: when a clip is selected and the playhead is inside it with a
`MIN_CLIP_DURATION` margin from both edges, the split replaces it with
exactly the left half and the right half (inheriting source reference and
track, with fresh ids), selects the right half, and keeps the playhead at
the split time; whenever the precondition fails the state is completely
unchanged (a no-op, not an error). -/
theorem split_replaces_selected_clip (s : EditorState) :
    (∀ selId C, s.playback.selectedTimelineClipId = some selId →
      findTimelineClip s.timeline.clips selId = some C →
      C.startTime + MIN_CLIP_DURATION ≤ s.playback.currentTime →
      s.playback.currentTime ≤ C.startTime + C.duration - MIN_CLIP_DURATION →
      (splitTimelineClip s).timeline.clips =
        (s.timeline.clips.filter (fun c => c.id != selId)) ++
          [{ id := s.nextId, clipId := C.clipId, track := C.track,
             startTime := C.startTime, trimStart := C.trimStart,
             trimEnd := C.trimStart + (s.playback.currentTime - C.startTime),
             duration := s.playback.currentTime - C.startTime },
           { id := s.nextId + 1, clipId := C.clipId, track := C.track,
             startTime := s.playback.currentTime,
             trimStart := C.trimStart + (s.playback.currentTime - C.startTime),
             trimEnd := C.trimEnd,
             duration := C.duration - (s.playback.currentTime - C.startTime) }] ∧
      (splitTimelineClip s).playback.selectedTimelineClipId = some (s.nextId + 1) ∧
      (splitTimelineClip s).playback.currentTime = s.playback.currentTime ∧
      (splitTimelineClip s).timeline.duration =
        maxClipEnd (splitTimelineClip s).timeline.clips) ∧
    ((s.playback.selectedTimelineClipId = none ∨
      (∃ selId, s.playback.selectedTimelineClipId = some selId ∧
        findTimelineClip s.timeline.clips selId = none) ∨
      (∃ selId C, s.playback.selectedTimelineClipId = some selId ∧
        findTimelineClip s.timeline.clips selId = some C ∧
        ¬(C.startTime + MIN_CLIP_DURATION ≤ s.playback.currentTime ∧
          s.playback.currentTime ≤ C.startTime + C.duration - MIN_CLIP_DURATION))) →
      splitTimelineClip s = s) := by
  have hMIN : (0:ℚ) < MIN_CLIP_DURATION := by norm_num [MIN_CLIP_DURATION]
  constructor
  · intro selId C hsel hfind hlo hhi
    unfold splitTimelineClip
    split
    next h0 =>
      rw [hsel] at h0
      cases h0
    next selId' hsel' =>
      rw [hsel] at hsel'
      injection hsel' with he
      subst he
      split
      next h0 =>
        rw [hfind] at h0
        cases h0
      next C' hfind' =>
        rw [hfind] at hfind'
        injection hfind' with he2
        subst he2
        dsimp only
        have hg1 : ¬(s.playback.currentTime ≤ C.startTime ∨
            C.startTime + C.duration ≤ s.playback.currentTime) := by
          push_neg
          constructor <;> linarith
        have hg2 : ¬(s.playback.currentTime - C.startTime < MIN_CLIP_DURATION ∨
            C.startTime + C.duration - s.playback.currentTime < MIN_CLIP_DURATION) := by
          push_neg
          constructor <;> linarith
        rw [if_neg hg1, if_neg hg2]
        exact ⟨rfl, rfl, rfl, rfl⟩
  · intro h
    unfold splitTimelineClip
    rcases h with hnone | ⟨selId, hsel, hfind⟩ | ⟨selId, C, hsel, hfind, hnp⟩
    · split
      next => rfl
      next selId' hsel' =>
        rw [hnone] at hsel'
        cases hsel'
    · split
      next => rfl
      next selId' hsel' =>
        rw [hsel] at hsel'
        injection hsel' with he
        subst he
        split
        next => rfl
        next C' hfind' =>
          rw [hfind] at hfind'
          cases hfind'
    · split
      next => rfl
      next selId' hsel' =>
        rw [hsel] at hsel'
        injection hsel' with he
        subst he
        split
        next => rfl
        next C' hfind' =>
          rw [hfind] at hfind'
          injection hfind' with he2
          subst he2
          dsimp only
          split
          next => rfl
          next hg1 =>
            split
            next => rfl
            next hg2 =>
              exfalso
              push_neg at hg1 hg2 hnp
              obtain ⟨hga, hgb⟩ := hg2
              have hA : C.startTime + MIN_CLIP_DURATION ≤ s.playback.currentTime := by
                linarith
              have hB := hnp hA
              linarith

/-- Concrete clip for the C2 witness (Scenario B). -/
def clipW2 : TimelineClip :=
  { id := 1, clipId := 1, track := 0, startTime := 0, trimStart := 0,
    trimEnd := 10, duration := 10 }

/-- Concrete state for the C2 witness: `clipW2` selected, playhead at 4. -/
def stateW2 : EditorState :=
  { timeline := { clips := [clipW2], playhead := 0, duration := 10 },
    playback :=
      { isPlaying := false, currentTime := 4, selectedClipId := none,
        selectedTimelineClipId := some 1 },
    videoTime := 0, nextId := 2 }

/-- Witness for C2 at Scenario B: splitting the selected `[0,10)` clip at
`t = 4`. -/
theorem split_replaces_selected_clip_witness :
    (splitTimelineClip stateW2).timeline.clips =
      (stateW2.timeline.clips.filter (fun c => c.id != 1)) ++
        [{ id := stateW2.nextId, clipId := clipW2.clipId, track := clipW2.track,
           startTime := clipW2.startTime, trimStart := clipW2.trimStart,
           trimEnd := clipW2.trimStart +
             (stateW2.playback.currentTime - clipW2.startTime),
           duration := stateW2.playback.currentTime - clipW2.startTime },
         { id := stateW2.nextId + 1, clipId := clipW2.clipId, track := clipW2.track,
           startTime := stateW2.playback.currentTime,
           trimStart := clipW2.trimStart +
             (stateW2.playback.currentTime - clipW2.startTime),
           trimEnd := clipW2.trimEnd,
           duration := clipW2.duration -
             (stateW2.playback.currentTime - clipW2.startTime) }] ∧
    (splitTimelineClip stateW2).playback.selectedTimelineClipId =
      some (stateW2.nextId + 1) ∧
    (splitTimelineClip stateW2).playback.currentTime =
      stateW2.playback.currentTime ∧
    (splitTimelineClip stateW2).timeline.duration =
      maxClipEnd (splitTimelineClip stateW2).timeline.clips :=
  (split_replaces_selected_clip stateW2).1 1 clipW2 rfl rfl
    (by norm_num [stateW2, clipW2, MIN_CLIP_DURATION])
    (by norm_num [stateW2, clipW2, MIN_CLIP_DURATION])

/-- C4: `undo(); redo()` restores the exact pre-undo timeline state (clips,
duration, playhead) and the exact manager state; `undo()` with an empty undo
stack returns `false` and changes nothing, and likewise `redo()` with an
empty redo stack. -/
theorem undo_redo_round_trip (mgr : UndoManagerState) (tl : TimelineState) :
    (mgr.undoStack = [] → undoStep mgr tl = (false, mgr, tl)) ∧
    (mgr.redoStack = [] → redoStep mgr tl = (false, mgr, tl)) ∧
    (mgr.undoStack ≠ [] →
      (undoStep mgr tl).1 = true ∧
      (redoStep (undoStep mgr tl).2.1 (undoStep mgr tl).2.2).1 = true ∧
      (redoStep (undoStep mgr tl).2.1 (undoStep mgr tl).2.2).2.2 = tl ∧
      (redoStep (undoStep mgr tl).2.1 (undoStep mgr tl).2.2).2.1 = mgr) := by
  obtain ⟨undoStack, redoStack⟩ := mgr
  refine ⟨?_, ?_, ?_⟩
  · intro h
    dsimp only at h
    subst h
    rfl
  · intro h
    dsimp only at h
    subst h
    cases undoStack <;> rfl
  · intro h
    cases undoStack with
    | nil => exact absurd rfl h
    | cons prev rest => exact ⟨rfl, rfl, rfl, rfl⟩

/-- Concrete manager for the C4 witness: one snapshot available to undo. -/
def mgrW4 : UndoManagerState :=
  { undoStack := [{ clips := [], playhead := 0, duration := 0 }], redoStack := [] }

/-- Concrete current timeline for the C4 witness. -/
def tlW4 : TimelineState :=
  { clips := [clipW2], playhead := 2, duration := 10 }

/-- Witness for C4: undo then redo on a one-snapshot history restores the
current timeline and manager exactly. -/
theorem undo_redo_round_trip_witness :
    (undoStep mgrW4 tlW4).1 = true ∧
    (redoStep (undoStep mgrW4 tlW4).2.1 (undoStep mgrW4 tlW4).2.2).1 = true ∧
    (redoStep (undoStep mgrW4 tlW4).2.1 (undoStep mgrW4 tlW4).2.2).2.2 = tlW4 ∧
    (redoStep (undoStep mgrW4 tlW4).2.1 (undoStep mgrW4 tlW4).2.2).2.1 = mgrW4 :=
  (undo_redo_round_trip mgrW4 tlW4).2.2 (by simp [mgrW4])

/-- Updating every matching clip through an id-preserving function commutes
with looking the clip up by id. -/
theorem findTimelineClip_map_update :
    ∀ (clips : List TimelineClip) (cid : Nat) (C : TimelineClip)
      (g : TimelineClip → TimelineClip),
      (∀ c, (g c).id = c.id) →
      findTimelineClip clips cid = some C →
      findTimelineClip
        (clips.map (fun c => if c.id == cid then g c else c)) cid = some (g C) := by
  intro clips
  induction clips with
  | nil =>
    intro cid C g hg h
    simp [findTimelineClip] at h
  | cons d ds ih =>
    intro cid C g hg h
    unfold findTimelineClip at h ⊢
    cases hb : (d.id == cid) with
    | true =>
      rw [List.find?_cons, hb] at h
      have h' : some d = some C := h
      injection h' with h'
      subst h'
      have hgd : ((g d).id == cid) = true := by rw [hg d]; exact hb
      rw [List.map_cons, if_pos hb, List.find?_cons, hgd]
    | false =>
      rw [List.find?_cons, hb] at h
      have h' : List.find? (fun c => c.id == cid) ds = some C := h
      have hnb : ¬((d.id == cid) = true) := by
        rw [hb]
        exact Bool.false_ne_true
      rw [List.map_cons, if_neg hnb, List.find?_cons, hb]
      exact ih cid C g hg h'

/-- C5: committing a trim-end drag with pointer displacement `dx` (time delta
`dx / zoom`) sets the clip's `trimEnd` to
`clamp(baseline.trimEnd + Δt, baseline.trimStart + MIN_CLIP_DURATION,
sourceClip.duration)` — written as the source's `max lo (min x hi)` — and its
duration to the clamped `trimEnd` minus the unchanged `trimStart`. -/
theorem trim_end_commit_clamps
    (reg : List SourceClip) (cid : Nat) (zoom dx : ℚ) (s : EditorState)
    (C : TimelineClip) (src : SourceClip)
    (hfind : findTimelineClip s.timeline.clips cid = some C)
    (hsrc : sourceFor reg C.clipId = some src) :
    findTimelineClip
      (applyTrimGesture reg cid TrimSide.tEnd zoom [dx] s).timeline.clips cid =
      some { C with
        trimEnd := max (C.trimStart + MIN_CLIP_DURATION)
          (min (C.trimEnd + dx / zoom) src.duration),
        duration := max (C.trimStart + MIN_CLIP_DURATION)
          (min (C.trimEnd + dx / zoom) src.duration) - C.trimStart } := by
  have hstart : startTrimDrag reg cid TrimSide.tEnd s =
      some { clipId := cid, side := TrimSide.tEnd, baseline := C,
             srcDuration := src.duration, finalTrimStart := C.trimStart,
             finalTrimEnd := C.trimEnd, finalStartTime := C.startTime } := by
    unfold startTrimDrag
    rw [hfind]
    show (match sourceFor reg C.clipId with
      | none => none
      | some sourceClip =>
        some ({ clipId := cid, side := TrimSide.tEnd, baseline := C,
                srcDuration := sourceClip.duration,
                finalTrimStart := C.trimStart, finalTrimEnd := C.trimEnd,
                finalStartTime := C.startTime } : TrimDrag)) = _
    rw [hsrc]
  unfold applyTrimGesture
  rw [hstart]
  exact findTimelineClip_map_update s.timeline.clips cid C _ (fun c => rfl) hfind

/-- Concrete registry for the C5 witness: a 10-second source. -/
def regW5 : List SourceClip := [{ id := 1, duration := 10 }]

/-- Concrete state for the C5 witness: the full source placed at 0. -/
def stateW5 : EditorState :=
  { timeline := { clips := [clipW2], playhead := 0, duration := 10 },
    playback :=
      { isPlaying := false, currentTime := 0, selectedClipId := none,
        selectedTimelineClipId := none },
    videoTime := 0, nextId := 2 }

/-- Witness for C5 at Scenario C: trimming the end of a `{trimStart: 0,
trimEnd: 10}` clip by `Δt = +3` against a 10s source commits `trimEnd = 10`
(no overshoot) and duration 10. -/
theorem trim_end_commit_clamps_witness :
    findTimelineClip
      (applyTrimGesture regW5 1 TrimSide.tEnd 1 [3] stateW5).timeline.clips 1 =
      some { id := 1, clipId := 1, track := 0, startTime := 0, trimStart := 0,
             trimEnd := 10, duration := 10 } := by
  have h := trim_end_commit_clamps regW5 1 1 3 stateW5 clipW2
    { id := 1, duration := 10 } rfl rfl
  rw [h]
  norm_num [clipW2, MIN_CLIP_DURATION, max_def, min_def]

/-- C6: a trim-drag pointer move never mutates the committed timeline model —
the clip list (hence every clip's stored `startTime`/`trimStart`/`trimEnd`/
`duration`) and the id counter are unchanged by every mouse move, across any
sequence of moves — and the whole gesture equals the single pointer-release
commit `trimMouseUp` applied to the final candidates. -/
theorem trim_drag_commits_only_on_release :
    (∀ (d : TrimDrag) (dx zoom : ℚ) (s : EditorState),
      ((trimMouseMove d dx zoom s).2).timeline = s.timeline ∧
      ((trimMouseMove d dx zoom s).2).nextId = s.nextId) ∧
    (∀ (d : TrimDrag) (zoom : ℚ) (moves : List ℚ) (s : EditorState),
      ((trimMoves d zoom moves s).2).timeline = s.timeline) ∧
    (∀ (reg : List SourceClip) (cid : Nat) (side : TrimSide) (zoom : ℚ)
      (moves : List ℚ) (s : EditorState) (d0 : TrimDrag),
      startTrimDrag reg cid side s = some d0 →
      applyTrimGesture reg cid side zoom moves s =
        trimMouseUp (trimMoves d0 zoom moves s).1 (trimMoves d0 zoom moves s).2) := by
  refine ⟨?_, ?_, ?_⟩
  · intro d dx zoom s
    obtain ⟨_, _, _, _, c5, c6, _⟩ := trimMouseMove_const d dx zoom s
    exact ⟨c5, c6⟩
  · intro d zoom moves s
    obtain ⟨_, _, _, _, m5, _, _, _⟩ := trimMoves_spec [] moves d zoom s
    exact m5
  · intro reg cid side zoom moves s d0 h
    unfold applyTrimGesture
    rw [h]

/-- Concrete drag value produced by pointer-down on `clipW2`'s end handle in
`stateW5`, used by the C6 witness. -/
def dragW6 : TrimDrag :=
  { clipId := 1, side := TrimSide.tEnd, baseline := clipW2, srcDuration := 10,
    finalTrimStart := 0, finalTrimEnd := 10, finalStartTime := 0 }

/-- Witness for C6: a concrete mouse move leaves the timeline untouched, and
the concrete gesture is exactly the one release commit. -/
theorem trim_drag_commits_only_on_release_witness :
    ((trimMouseMove dragW6 3 1 stateW5).2).timeline = stateW5.timeline ∧
    applyTrimGesture regW5 1 TrimSide.tEnd 1 [3] stateW5 =
      trimMouseUp (trimMoves dragW6 1 [3] stateW5).1
        (trimMoves dragW6 1 [3] stateW5).2 :=
  ⟨(trim_drag_commits_only_on_release.1 dragW6 3 1 stateW5).1,
   trim_drag_commits_only_on_release.2.2 regW5 1 TrimSide.tEnd 1 [3] stateW5
     dragW6 rfl⟩

/-- C7: snapping during a move drag is deterministic: the candidate start
time is replaced by the snap point chosen by the scan — a closest point
strictly within `SNAP_THRESHOLD`, with earlier enumerated points winning
ties — and left unsnapped exactly when no snap point is within the
threshold. -/
theorem move_snap_deterministic :
    (∀ (raw : ℚ) (points : List ℚ) (p : ℚ), findSnap raw points = some p →
      p ∈ points ∧ |raw - p| < SNAP_THRESHOLD ∧
      ∀ q ∈ points, |raw - p| ≤ |raw - q|) ∧
    (∀ (raw : ℚ) (points : List ℚ), findSnap raw points = none →
      ∀ q ∈ points, SNAP_THRESHOLD ≤ |raw - q|) ∧
    (∀ (raw : ℚ) (l₁ : List ℚ) (p : ℚ) (l₂ : List ℚ),
      |raw - p| < SNAP_THRESHOLD →
      (∀ q ∈ l₁, |raw - p| < |raw - q|) →
      (∀ q ∈ l₂, |raw - p| ≤ |raw - q|) →
      findSnap raw (l₁ ++ p :: l₂) = some p) ∧
    (∀ (d : MoveDrag) (dx dy zoom : ℚ) (s : EditorState),
      (moveMouseMove d dx dy zoom s).1.finalStartTime =
        (match findSnap (moveRawStartTime d dx zoom)
            (snapPointsFor s.timeline.clips d.clipId (moveTargetTrack d dy)) with
          | some p => p
          | none => moveRawStartTime d dx zoom) ∧
      (moveMouseMove d dx dy zoom s).1.snapTargetTime =
        findSnap (moveRawStartTime d dx zoom)
          (snapPointsFor s.timeline.clips d.clipId (moveTargetTrack d dy))) := by
  refine ⟨?_, ?_, ?_, ?_⟩
  · intro raw points p h
    exact findSnap_some_spec h
  · intro raw points h
    exact findSnap_none_spec h
  · intro raw l₁ p l₂ h1 h2 h3
    exact findSnap_first raw l₁ p l₂ h1 h2 h3
  · intro d dx dy zoom s
    cases h : findSnap (moveRawStartTime d dx zoom)
        (snapPointsFor s.timeline.clips d.clipId (moveTargetTrack d dy)) <;>
      simp [moveMouseMove, h]

/-- Scenario-E clips: `[0,5)` and `[8,12)` on Main, plus the dragged clip. -/
def clipE1 : TimelineClip :=
  { id := 1, clipId := 1, track := 0, startTime := 0, trimStart := 0,
    trimEnd := 5, duration := 5 }

/-- Second Scenario-E clip, `[8,12)` on Main. -/
def clipE2 : TimelineClip :=
  { id := 2, clipId := 1, track := 0, startTime := 8, trimStart := 0,
    trimEnd := 4, duration := 4 }

/-- The dragged Scenario-E clip. -/
def clipE3 : TimelineClip :=
  { id := 3, clipId := 1, track := 0, startTime := 4, trimStart := 0,
    trimEnd := 2, duration := 2 }

/-- Scenario-E state. -/
def stateW7 : EditorState :=
  { timeline := { clips := [clipE1, clipE2, clipE3], playhead := 0, duration := 12 },
    playback :=
      { isPlaying := false, currentTime := 0, selectedClipId := none,
        selectedTimelineClipId := none },
    videoTime := 0, nextId := 4 }

/-- The active drag of `clipE3`. -/
def dragW7 : MoveDrag :=
  { clipId := 3, original := clipE3, finalStartTime := 4, finalTrack := 0,
    isSnapping := false, snapTargetTime := none }

/-- Witness for C7 at Scenario E: dragging the third clip's start to
`t = 5.1` snaps it to `t = 5`. -/
theorem move_snap_deterministic_witness :
    (moveMouseMove dragW7 (11/10) 0 1 stateW7).1.finalStartTime = 5 ∧
    (moveMouseMove dragW7 (11/10) 0 1 stateW7).1.snapTargetTime = some 5 := by
  obtain ⟨hsome, hnone, hfirst, hbridge⟩ := move_snap_deterministic
  obtain ⟨hfs, hst⟩ := hbridge dragW7 (11/10) 0 1 stateW7
  have hraw : moveRawStartTime dragW7 (11/10) 1 = 51/10 := by
    unfold moveRawStartTime dragW7 clipE3
    norm_num [max_def]
  have hcid : dragW7.clipId = 3 := rfl
  have htrack : moveTargetTrack dragW7 0 = 0 := rfl
  have hpts : snapPointsFor stateW7.timeline.clips 3 0 = [0, 5, 8, 12, 0] := by
    simp [snapPointsFor, stateW7, clipE1, clipE2, clipE3]
    norm_num
  have e5 : |(51:ℚ)/10 - 5| = 1/10 := by
    rw [show ((51:ℚ)/10 - 5) = 1/10 by norm_num]
    exact abs_of_pos (by norm_num)
  have e0 : |(51:ℚ)/10 - 0| = 51/10 := by
    rw [show ((51:ℚ)/10 - 0) = 51/10 by norm_num]
    exact abs_of_pos (by norm_num)
  have e8 : |(51:ℚ)/10 - 8| = 29/10 := by
    rw [show ((51:ℚ)/10 - 8) = -(29/10) by norm_num, abs_neg]
    exact abs_of_pos (by norm_num)
  have e12 : |(51:ℚ)/10 - 12| = 69/10 := by
    rw [show ((51:ℚ)/10 - 12) = -(69/10) by norm_num, abs_neg]
    exact abs_of_pos (by norm_num)
  have hsnap : findSnap ((51:ℚ)/10) [0, 5, 8, 12, 0] = some 5 := by
    refine hfirst (51/10) [0] 5 [8, 12, 0] ?_ ?_ ?_
    · rw [e5]
      norm_num [SNAP_THRESHOLD]
    · intro q hq
      simp only [List.mem_singleton] at hq
      subst hq
      rw [e5, e0]
      norm_num
    · intro q hq
      fin_cases hq
      · rw [e5, e8]
        norm_num
      · rw [e5, e12]
        norm_num
      · rw [e5, e0]
        norm_num
  rw [hraw, hcid, htrack, hpts, hsnap] at hfs hst
  exact ⟨hfs, hst⟩

/-! PlaybackSync clip-boundary behaviour. -/

theorem activeTimelineClip_mem {tl : TimelineState} {pb : PlaybackState}
    {ac : TimelineClip} (h : activeTimelineClip tl pb = some ac) :
    ac ∈ tl.clips := by
  unfold activeTimelineClip at h
  dsimp only at h
  split at h
  next c hc =>
    injection h with h
    subst h
    split at hc
    · exact (List.mem_filter.mp (List.mem_of_find?_eq_some hc)).1
    · cases hc
  next hc =>
    split at h
    next c hsel =>
      split at h
      · injection h with h
        subst h
        unfold selectedTimelineClip at hsel
        split at hsel
        next tid htid => exact (findTimelineClip_mem hsel).1
        next => cases hsel
      · cases h
    next => cases h

/-- C8: in a PlaybackSync tick where the source time has reached the active
Main-track clip's `trimEnd`: if some Main-track clip starts at or after the
active clip's end, the tick jumps the playhead to the first such clip's start
(and the derived clip-sync seek lands at its `trimStart`, the start of its
source range) and keeps playing and rescheduling; if no such clip exists, the
tick pauses the video, flips `isPlaying` to false, and schedules no further
tick. -/
theorem sync_tick_boundary
    (tl : TimelineState) (pb : PlaybackState) (videoTime trimStartV : ℚ)
    (ac : TimelineClip)
    (ha : activeTimelineClip tl pb = some ac)
    (hplay : pb.isPlaying = true)
    (hend : ac.trimEnd ≤ videoTime) :
    ((∃ c ∈ tl.clips, c.track = 0 ∧ ac.startTime + ac.duration ≤ c.startTime) →
      ∃ nc, (tl.clips.filter (fun c => c.track == 0)).find?
          (fun c => decide (ac.startTime + ac.duration ≤ c.startTime)) = some nc ∧
        nc.track = 0 ∧ ac.startTime + ac.duration ≤ nc.startTime ∧
        (syncTick tl pb false videoTime trimStartV ac.trimEnd).playback.currentTime
          = nc.startTime ∧
        (syncTick tl pb false videoTime trimStartV ac.trimEnd).playback.isPlaying
          = true ∧
        (syncTick tl pb false videoTime trimStartV ac.trimEnd).reschedule = true ∧
        (syncTick tl pb false videoTime trimStartV ac.trimEnd).videoPaused = false ∧
        clipSyncVideoTime nc nc.startTime = nc.trimStart) ∧
    ((¬∃ c ∈ tl.clips, c.track = 0 ∧ ac.startTime + ac.duration ≤ c.startTime) →
      (syncTick tl pb false videoTime trimStartV ac.trimEnd).playback.isPlaying
        = false ∧
      (syncTick tl pb false videoTime trimStartV ac.trimEnd).videoPaused = true ∧
      (syncTick tl pb false videoTime trimStartV ac.trimEnd).reschedule = false) := by
  constructor
  · intro hex
    have hsome : ((tl.clips.filter (fun c => c.track == 0)).find?
        (fun c => decide (ac.startTime + ac.duration ≤ c.startTime))).isSome := by
      rw [List.find?_isSome]
      obtain ⟨c, hc, ht, hs⟩ := hex
      exact ⟨c, List.mem_filter.mpr ⟨hc, by simp [ht]⟩, by simp [hs]⟩
    obtain ⟨nc, hnc⟩ := Option.isSome_iff_exists.mp hsome
    have hmemf := List.mem_filter.mp (List.mem_of_find?_eq_some hnc)
    have htr : nc.track = 0 := by
      have := hmemf.2
      simpa using this
    have hge : ac.startTime + ac.duration ≤ nc.startTime := by
      have := List.find?_some hnc
      simpa using this
    refine ⟨nc, hnc, htr, hge, ?_, ?_, ?_, ?_, ?_⟩ <;>
      first
      | (simp only [syncTick, ha, if_neg (by exact Bool.false_ne_true),
          if_pos hend, hnc, hplay]
         simp [hplay])
      | (unfold clipSyncVideoTime; ring)
  · intro hex
    have hnone : (tl.clips.filter (fun c => c.track == 0)).find?
        (fun c => decide (ac.startTime + ac.duration ≤ c.startTime)) = none := by
      rw [List.find?_eq_none]
      intro x hx
      obtain ⟨hx1, hx2⟩ := List.mem_filter.mp hx
      intro hdec
      refine hex ⟨x, hx1, by simpa using hx2, by simpa using hdec⟩
    refine ⟨?_, ?_, ?_⟩ <;>
      simp only [syncTick, ha, if_neg (by exact Bool.false_ne_true),
        if_pos hend, hnone]

/-- First witness clip for C8: the active Main-track clip `[0,5)`. -/
def clipA8 : TimelineClip :=
  { id := 1, clipId := 1, track := 0, startTime := 0, trimStart := 0,
    trimEnd := 5, duration := 5 }

/-- Second witness clip for C8: the next Main-track clip at `t = 5`. -/
def clipB8 : TimelineClip :=
  { id := 2, clipId := 1, track := 0, startTime := 5, trimStart := 0,
    trimEnd := 4, duration := 4 }

/-- Witness timeline for C8. -/
def tlW8 : TimelineState := { clips := [clipA8, clipB8], playhead := 2, duration := 9 }

/-- Witness playback state for C8: playing with the playhead inside `clipA8`. -/
def pbW8 : PlaybackState :=
  { isPlaying := true, currentTime := 2, selectedClipId := none,
    selectedTimelineClipId := none }

/-- Witness for C8: source time 5 has reached `clipA8.trimEnd`; the tick jumps
to the next Main-track clip and keeps playing. -/
theorem sync_tick_boundary_witness :
    ∃ nc, (tlW8.clips.filter (fun c => c.track == 0)).find?
        (fun c => decide (clipA8.startTime + clipA8.duration ≤ c.startTime)) = some nc ∧
      nc.track = 0 ∧ clipA8.startTime + clipA8.duration ≤ nc.startTime ∧
      (syncTick tlW8 pbW8 false 5 0 clipA8.trimEnd).playback.currentTime
        = nc.startTime ∧
      (syncTick tlW8 pbW8 false 5 0 clipA8.trimEnd).playback.isPlaying = true ∧
      (syncTick tlW8 pbW8 false 5 0 clipA8.trimEnd).reschedule = true ∧
      (syncTick tlW8 pbW8 false 5 0 clipA8.trimEnd).videoPaused = false ∧
      clipSyncVideoTime nc nc.startTime = nc.trimStart := by
  have ha : activeTimelineClip tlW8 pbW8 = some clipA8 := by
    unfold activeTimelineClip
    dsimp only
    rw [if_pos ⟨by norm_num [tlW8], rfl⟩]
    have hfilter : tlW8.clips.filter (fun c => c.track == 0) = [clipA8, clipB8] := rfl
    rw [hfilter, List.find?_cons]
    have hcond : (decide (clipA8.startTime ≤ pbW8.currentTime) &&
        decide (pbW8.currentTime < clipA8.startTime + clipA8.duration)) = true := by
      norm_num [clipA8, pbW8]
    rw [hcond]
  exact (sync_tick_boundary tlW8 pbW8 5 0 clipA8 ha rfl (by norm_num [clipA8])).1
    ⟨clipB8, by simp [tlW8], rfl, by norm_num [clipA8, clipB8]⟩

/-! Playhead bounds (C9). -/

/-- Clip for the C9 counterexample: 5 seconds placed from a 100s source. -/
def clipW9 : TimelineClip :=
  { id := 1, clipId := 1, track := 0, startTime := 0, trimStart := 0,
    trimEnd := 5, duration := 5 }

/-- Registry for the C9 counterexample. -/
def regW9 : List SourceClip := [{ id := 1, duration := 100 }]

/-- State for the C9 counterexample. -/
def stateW9 : EditorState :=
  { timeline := { clips := [clipW9], playhead := 0, duration := 5 },
    playback :=
      { isPlaying := false, currentTime := 0, selectedClipId := none,
        selectedTimelineClipId := none },
    videoTime := 0, nextId := 2 }

/-- The pointer-down drag value for the C9 counterexample. -/
def dragW9 : TrimDrag :=
  { clipId := 1, side := TrimSide.tEnd, baseline := clipW9, srcDuration := 100,
    finalTrimStart := 0, finalTrimEnd := 5, finalStartTime := 0 }

/-- Counterexample to C9: a live trim-end mouse move (delta `+50`s against a
100s source) writes playhead `currentTime = 55` while the effective total
duration is still 10, so the playhead does not lie within
`[0, totalDuration]` after this playhead-mutating step. -/
theorem playhead_exceeds_totalDuration_counterexample :
    startTrimDrag regW9 1 TrimSide.tEnd stateW9 = some dragW9 ∧
    ((trimMouseMove dragW9 50 1 stateW9).2).playback.currentTime = 55 ∧
    effectiveTimelineDuration regW9 ((trimMouseMove dragW9 50 1 stateW9).2) true = 10 ∧
    ¬(((trimMouseMove dragW9 50 1 stateW9).2).playback.currentTime ≤
        effectiveTimelineDuration regW9 ((trimMouseMove dragW9 50 1 stateW9).2) true) := by
  have h1 : ((trimMouseMove dragW9 50 1 stateW9).2).playback.currentTime = 55 := by
    show dragW9.baseline.startTime +
      (max (dragW9.baseline.trimStart + MIN_CLIP_DURATION)
        (min (dragW9.baseline.trimEnd + 50 / 1) dragW9.srcDuration) -
        dragW9.baseline.trimStart) = 55
    norm_num [dragW9, clipW9, MIN_CLIP_DURATION, max_def, min_def]
  have h2 : effectiveTimelineDuration regW9 ((trimMouseMove dragW9 50 1 stateW9).2) true
      = 10 := by
    show max stateW9.timeline.duration 10 = 10
    norm_num [stateW9, max_def]
  refine ⟨rfl, h1, h2, ?_⟩
  rw [h1, h2]
  norm_num

/-- C9 (amended): click-to-seek within the timeline element and every
playhead-drag move keep the playhead within `[0, effective duration]`;
trim-drag live updates, move-drag live updates (over nonnegative clip
layouts), and PlaybackSync writes from a source time at or past the active
`trimStart` keep the playhead `≥ 0` but are not clamped to the total
duration mid-gesture. -/
theorem playhead_bounds_amended :
    (∀ (clickX zoom eff : ℚ) (pb : PlaybackState), 0 ≤ clickX → 0 < zoom →
      clickX ≤ eff * zoom →
      0 ≤ (handleTimelineClick clickX zoom pb).currentTime ∧
      (handleTimelineClick clickX zoom pb).currentTime ≤ eff) ∧
    (∀ (xRel zoom effDur : ℚ) (tl : TimelineState) (pb : PlaybackState),
      0 ≤ effDur →
      0 ≤ (playheadDragMove xRel zoom effDur tl pb).1.currentTime ∧
      (playheadDragMove xRel zoom effDur tl pb).1.currentTime ≤ effDur) ∧
    (∀ (d : TrimDrag) (dx zoom : ℚ) (s : EditorState),
      0 ≤ d.baseline.startTime →
      0 ≤ ((trimMouseMove d dx zoom s).2).playback.currentTime) ∧
    (∀ (d : MoveDrag) (dx dy zoom : ℚ) (s : EditorState),
      (∀ c ∈ s.timeline.clips, 0 ≤ c.startTime ∧ 0 ≤ c.duration) →
      0 ≤ ((moveMouseMove d dx dy zoom s).2).playback.currentTime) ∧
    (∀ (tl : TimelineState) (pb : PlaybackState)
      (videoTime trimStartV trimEndV : ℚ),
      (∀ c ∈ tl.clips, 0 ≤ c.startTime ∧ 0 ≤ c.duration) →
      0 ≤ videoTime → trimStartV ≤ videoTime →
      0 ≤ (syncTick tl pb false videoTime trimStartV trimEndV).playback.currentTime) := by
  have hMIN : (0:ℚ) < MIN_CLIP_DURATION := by norm_num [MIN_CLIP_DURATION]
  refine ⟨?_, ?_, ?_, ?_, ?_⟩
  · intro clickX zoom eff pb hx hz hle
    constructor
    · exact div_nonneg hx (le_of_lt hz)
    · show clickX / zoom ≤ eff
      rw [div_le_iff₀ hz]
      exact hle
  · intro xRel zoom effDur tl pb heff
    have hval : (playheadDragMove xRel zoom effDur tl pb).1.currentTime =
        max 0 (min (max 0 xRel / zoom) effDur) := by
      unfold playheadDragMove
      dsimp only
      split <;> rfl
    rw [hval]
    exact ⟨le_max_left _ _, max_le heff (min_le_right _ _)⟩
  · intro d dx zoom s hb
    cases hs : d.side with
    | tStart =>
      show 0 ≤ ((trimMouseMove d dx zoom s).2).playback.currentTime
      simp only [trimMouseMove, hs]
      exact le_max_left _ _
    | tEnd =>
      simp only [trimMouseMove, hs]
      have : d.baseline.trimStart + MIN_CLIP_DURATION ≤
          max (d.baseline.trimStart + MIN_CLIP_DURATION)
            (min (d.baseline.trimEnd + dx / zoom) d.srcDuration) :=
        le_max_left _ _
      linarith
  · intro d dx dy zoom s hcl
    have hcur : ((moveMouseMove d dx dy zoom s).2).playback.currentTime =
        (moveMouseMove d dx dy zoom s).1.finalStartTime := by
      simp only [moveMouseMove]
    rw [hcur]
    exact moveMouseMove_nonneg d dx dy zoom s hcl
  · intro tl pb videoTime trimStartV trimEndV hcl hv hts
    unfold syncTick
    rw [if_neg (by exact Bool.false_ne_true)]
    cases ha : activeTimelineClip tl pb with
    | some ac =>
      have hmem := activeTimelineClip_mem ha
      have hac := hcl ac hmem
      have hpos : 0 ≤ ac.startTime + (videoTime - trimStartV) := by
        linarith [hac.1]
      dsimp only
      split
      next hend =>
        split
        next nc hfind =>
          have hmemnc : nc ∈ tl.clips :=
            (List.mem_filter.mp (List.mem_of_find?_eq_some hfind)).1
          split
          · exact (hcl nc hmemnc).1
          · exact hpos
        next hfind => exact hpos
      next hend => exact hpos
    | none =>
      dsimp only
      split
      next stc hsel =>
        split
        · exact hv
        · exact hv
      next hsel => exact hv

/-- Witness for the amended C9 at concrete inputs: a click at `x = 2` with
`zoom = 1` and effective duration 10; a playhead-drag move from a negative
pointer position; the C9-counterexample trim move (still `≥ 0`); the
Scenario-E move drag; and a sync tick on the C8 state. -/
theorem playhead_bounds_amended_witness :
    (0 ≤ (handleTimelineClick 2 1 pbW8).currentTime ∧
      (handleTimelineClick 2 1 pbW8).currentTime ≤ 10) ∧
    (0 ≤ (playheadDragMove (-1) 1 10 tlW8 pbW8).1.currentTime ∧
      (playheadDragMove (-1) 1 10 tlW8 pbW8).1.currentTime ≤ 10) ∧
    0 ≤ ((trimMouseMove dragW9 50 1 stateW9).2).playback.currentTime ∧
    0 ≤ ((moveMouseMove dragW7 (11/10) 0 1 stateW7).2).playback.currentTime ∧
    0 ≤ (syncTick tlW8 pbW8 false 5 0 5).playback.currentTime := by
  obtain ⟨ha, hb, hc, hd, he⟩ := playhead_bounds_amended
  have hclips8 : ∀ c ∈ tlW8.clips, 0 ≤ c.startTime ∧ 0 ≤ c.duration := by
    intro c hcm
    fin_cases hcm <;> constructor <;> norm_num [clipA8, clipB8]
  have hclips7 : ∀ c ∈ stateW7.timeline.clips, 0 ≤ c.startTime ∧ 0 ≤ c.duration := by
    intro c hcm
    fin_cases hcm <;> constructor <;> norm_num [clipE1, clipE2, clipE3]
  refine ⟨?_, ?_, ?_, ?_, ?_⟩
  · exact ha 2 1 10 pbW8 (by norm_num) (by norm_num) (by norm_num)
  · exact hb (-1) 1 10 tlW8 pbW8 (by norm_num)
  · exact hc dragW9 50 1 stateW9 (by norm_num [dragW9, clipW9])
  · exact hd dragW7 (11/10) 0 1 stateW7 hclips7
  · exact he tlW8 pbW8 5 0 5 hclips8 (by norm_num) (by norm_num)

/-! Undo snapshots at gesture pointer-down (C10). -/

theorem map_id_of_eq : ∀ (l : List TimelineClip) (f : TimelineClip → TimelineClip),
    (∀ c ∈ l, f c = c) → l.map f = l := by
  intro l f
  induction l with
  | nil => intro _; rfl
  | cons c cs ih =>
    intro h
    rw [List.map_cons, h c (List.mem_cons_self c cs),
      ih (fun x hx => h x (List.mem_cons_of_mem c hx))]

theorem saveState_spec (mgr : UndoManagerState) (tl : TimelineState) :
    (saveState mgr tl).redoStack = [] ∧
    (saveState mgr tl).undoStack.head? = some (snapshotOf tl) := by
  unfold saveState
  dsimp only
  refine ⟨rfl, ?_⟩
  split
  next hlen =>
    cases hstack : mgr.undoStack with
    | nil =>
      rw [hstack] at hlen
      norm_num [MAX_HISTORY] at hlen
    | cons b bs => simp [List.dropLast]
  next => rfl

theorem clip_eta (c : TimelineClip) (h : c.duration = c.trimEnd - c.trimStart) :
    ({ c with
        trimStart := c.trimStart,
        trimEnd := c.trimEnd,
        startTime := c.startTime,
        duration := c.trimEnd - c.trimStart } : TimelineClip) = c := by
  cases c
  dsimp only at h ⊢
  rw [← h]

/-- C10: a trim or clip-move pointer-down (after its lookups succeed) pushes
a snapshot of the current, unchanged timeline onto the undo stack and empties
the redo stack; a zero-delta trim drag (press and release without moving)
commits the timeline back unchanged, so its whole effect is that pushed
snapshot and the discarded redo history. -/
theorem gesture_down_pushes_snapshot :
    (∀ (reg : List SourceClip) (cid : Nat) (side : TrimSide) (s : EditorState)
      (mgr : UndoManagerState) (dm : TrimDrag × UndoManagerState),
      startTrimDragM reg cid side s mgr = some dm →
      dm.2.redoStack = [] ∧ dm.2.undoStack.head? = some (snapshotOf s.timeline)) ∧
    (∀ (button cid : Nat) (s : EditorState) (mgr : UndoManagerState)
      (dm : MoveDrag × UndoManagerState),
      startClipDragM button cid s mgr = some dm →
      dm.2.redoStack = [] ∧ dm.2.undoStack.head? = some (snapshotOf s.timeline)) ∧
    (∀ (reg : List SourceClip) (cid : Nat) (side : TrimSide) (zoom : ℚ)
      (s : EditorState) (mgr : UndoManagerState),
      ValidState reg s →
      s.timeline.duration = maxClipEnd s.timeline.clips →
      (startTrimDrag reg cid side s).isSome →
      (trimGestureM reg cid side zoom [] s mgr).1.timeline = s.timeline ∧
      (trimGestureM reg cid side zoom [] s mgr).2.redoStack = [] ∧
      (trimGestureM reg cid side zoom [] s mgr).2.undoStack.head?
        = some (snapshotOf s.timeline)) := by
  refine ⟨?_, ?_, ?_⟩
  · intro reg cid side s mgr dm h
    unfold startTrimDragM at h
    split at h
    next => cases h
    next d hd =>
      injection h with h
      subst h
      exact saveState_spec mgr s.timeline
  · intro button cid s mgr dm h
    unfold startClipDragM at h
    split at h
    next => cases h
    next d hd =>
      injection h with h
      subst h
      exact saveState_spec mgr s.timeline
  · intro reg cid side zoom s mgr hv hdur hsome
    obtain ⟨d0, heq⟩ := Option.isSome_iff_exists.mp hsome
    have hgm : trimGestureM reg cid side zoom [] s mgr =
        (trimMouseUp d0 s, saveState mgr s.timeline) := by
      unfold trimGestureM startTrimDragM
      rw [heq]
      rfl
    rw [hgm]
    refine ⟨?_, (saveState_spec mgr s.timeline).1, (saveState_spec mgr s.timeline).2⟩
    obtain ⟨s1, _, s3, s4, _, f1, f2, f3⟩ := startTrimDrag_spec heq
    have hpw : s.timeline.clips.Pairwise (fun a b => a.id ≠ b.id) := hv.2.1
    have hclipsEq : s.timeline.clips.map (fun c =>
        if c.id == d0.clipId then
          { c with trimStart := d0.finalTrimStart, trimEnd := d0.finalTrimEnd,
                   startTime := d0.finalStartTime,
                   duration := d0.finalTrimEnd - d0.finalTrimStart }
        else c) = s.timeline.clips := by
      apply map_id_of_eq
      intro c hc
      by_cases hcid : (c.id == d0.clipId) = true
      · have hceq : c = d0.baseline := by
          refine eq_of_same_id _ hpw c d0.baseline hc s3 ?_
          rw [s4, ← s1]
          exact beq_iff_eq.mp hcid
        have k5 := (hv.1 c hc).2.2.2.2.1
        rw [if_pos hcid, f1, f2, f3, ← hceq]
        exact clip_eta c k5
      · rw [if_neg hcid]
    unfold trimMouseUp
    dsimp only
    rw [hclipsEq, ← hdur]

/-- Witness manager for C10: empty undo history but nonempty redo history. -/
def mgrW10 : UndoManagerState := { undoStack := [], redoStack := [tlW4] }

/-- Witness for C10: the concrete trim pointer-down pushes the snapshot and
empties the previously nonempty redo stack, and a zero-delta gesture leaves
the timeline unchanged. -/
theorem gesture_down_pushes_snapshot_witness :
    ((dragW6, saveState mgrW10 stateW5.timeline).2.redoStack = [] ∧
      (dragW6, saveState mgrW10 stateW5.timeline).2.undoStack.head?
        = some (snapshotOf stateW5.timeline)) ∧
    ((trimGestureM regW5 1 TrimSide.tEnd 1 [] stateW5 mgrW10).1.timeline
        = stateW5.timeline ∧
      (trimGestureM regW5 1 TrimSide.tEnd 1 [] stateW5 mgrW10).2.redoStack = [] ∧
      (trimGestureM regW5 1 TrimSide.tEnd 1 [] stateW5 mgrW10).2.undoStack.head?
        = some (snapshotOf stateW5.timeline)) := by
  have hv : ValidState regW5 stateW5 := by
    refine ⟨?_, ?_, ?_⟩
    · intro c hc
      simp only [stateW5, List.mem_singleton] at hc
      subst hc
      refine ⟨le_refl 0, le_refl 0, by norm_num [clipW2],
        by norm_num [clipW2, MIN_CLIP_DURATION], by norm_num [clipW2],
        ⟨{ id := 1, duration := 10 }, rfl, by norm_num [clipW2]⟩⟩
    · simp [stateW5]
    · intro c hc
      simp only [stateW5, List.mem_singleton] at hc
      subst hc
      norm_num [clipW2, stateW5]
  have hdur : stateW5.timeline.duration = maxClipEnd stateW5.timeline.clips := by
    norm_num [stateW5, maxClipEnd, clipW2, max_def]
  constructor
  · exact gesture_down_pushes_snapshot.1 regW5 1 TrimSide.tEnd stateW5 mgrW10
      (dragW6, saveState mgrW10 stateW5.timeline) rfl
  · exact gesture_down_pushes_snapshot.2.2 regW5 1 TrimSide.tEnd 1 stateW5 mgrW10
      hv hdur (by rw [show startTrimDrag regW5 1 TrimSide.tEnd stateW5
        = some dragW6 from rfl]; rfl)

end Clipforge
